import Mathlib

/-!
Verification development for the nibble-backend action-synchronization
engine and its concept stores.

The concept operations and queries (SessioningConcept, RecipeConcept,
AnnotationConcept modelled here as `Annot`, NotebookConcept) and the
synchronization rules (the sync files) are embedded from the TypeScript
source.  The generic synchronization engine itself (the `Frames` class,
pattern matcher and action dispatcher imported from `@engine`) is not part
of the repository sources, so those pieces are modelled from the
specification; each such definition carries a doc comment saying so.
-/

namespace Nibble

/-- Embedded from `RecipeConcept.ts`: an ingredient of a recipe. -/
structure Ingredient where
  name : String
  quantity : String
  unit : Option String
  notes : Option String
deriving DecidableEq, Repr

/-- Embedded from `RecipeConcept.ts`: a single instruction of a recipe. -/
structure Step where
  description : String
  notes : Option String
deriving DecidableEq, Repr

/-- Embedded from `RecipeConcept.ts` (`RecipeDoc`).  Dates are modelled as
milliseconds since the epoch. -/
structure RecipeDoc where
  id : String
  owner : String
  title : String
  description : Option String
  ingredients : List Ingredient
  steps : List Step
  tags : List String
  forkedFrom : Option String
  created : Nat
  updated : Nat
deriving DecidableEq, Repr

/-- Embedded from `NotebookConcept.ts` (`NotebookDocument`). -/
structure NotebookDocument where
  id : String
  owner : String
  title : String
  description : Option String
  members : List String
  recipes : List String
  created : Nat
deriving DecidableEq, Repr

/-- Embedded from `SessioningConcept.ts` (`SessionDoc`). -/
structure SessionDoc where
  id : String
  user : String
  created : Nat
  expires : Nat
deriving DecidableEq, Repr

/-- Embedded from the Annotation concept source (`AnnotationDoc`).  The
target kind is one of the string literals "Ingredient" or "Step"; it is
kept as a string as in the source. -/
structure AnnotDoc where
  id : String
  author : String
  recipe : String
  targetKind : String
  targetIndex : Int
  text : String
  created : Nat
  resolved : Bool
deriving DecidableEq, Repr

/-- The literal payload values a persisted request input can hold (the
recursion through `RequestDoc` is kept first-order by restricting stored
inputs to these shapes, which covers every route of the repository). -/
inductive ValueLit where
  | lStr (s : String)
  | lNum (n : Nat)
  | lBool (b : Bool)
  | lIngredients (l : List Ingredient)
  | lSteps (l : List Step)
deriving DecidableEq, Repr

/-- Modelled from the spec (section 6, the transport boundary): the
Requesting concept persists each inbound request (its id and the
caller-supplied input map); the sync `UpdateRecipeDetailsRequest` reads
it back through `Requesting._getRequestById`, whose implementation is
not under `src/`. -/
structure RequestDoc where
  id : String
  input : List (String × ValueLit)
deriving DecidableEq, Repr

/-- The values that flow through action entries, binding frames and
concept operations: strings (ids, titles, error messages), numbers,
booleans, whole documents returned by queries, ingredient and step lists,
and the JavaScript `undefined` used by the sync files. -/
inductive Value where
  | vUndefined
  | vStr (s : String)
  | vNum (n : Nat)
  | vBool (b : Bool)
  | vRecipeDoc (d : RecipeDoc)
  | vNotebookDoc (d : NotebookDocument)
  | vRequestDoc (d : RequestDoc)
  | vIngredients (l : List Ingredient)
  | vSteps (l : List Step)
deriving DecidableEq, Repr

/-- The frame value of a stored request-input literal. -/
def ValueLit.toValue : ValueLit → Value
  | ValueLit.lStr s => Value.vStr s
  | ValueLit.lNum n => Value.vNum n
  | ValueLit.lBool b => Value.vBool b
  | ValueLit.lIngredients l => Value.vIngredients l
  | ValueLit.lSteps l => Value.vSteps l

/-- JavaScript truthiness test used by guards such as `if (!session)`. -/
def Value.falsy : Value → Bool
  | Value.vUndefined => true
  | Value.vStr s => s == ""
  | Value.vNum n => n == 0
  | Value.vBool b => !b
  | _ => false

/-- JavaScript strict equality `===` as used by the sync filters: all the
comparisons the rules perform are between primitive values, where `===`
coincides with structural equality. -/
def jsEq (v w : Value) : Bool := decide (v = w)

/-- A row of named fields: the result row of a query, the inputs or the
outputs of an executed action.  Also the representation of a binding
frame (spec section 3: a frame is a map from variables to values). -/
abbrev Row := List (String × Value)

abbrev Frame := Row

/-- Field lookup in a row or frame. -/
def getVal (f : Row) (k : String) : Option Value :=
  (f.find? (fun p => p.1 == k)).map (fun p => p.2)

/-- Field lookup defaulting to `undefined`, as a JavaScript property
access on a missing key does. -/
def getValD (f : Row) (k : String) : Value :=
  (getVal f k).getD Value.vUndefined

/-- Setting a field of a row or frame (JavaScript property assignment on
a fresh clone, as `cloneFrame` / object spread produce). -/
def setVal (f : Row) (k : String) (v : Value) : Row :=
  f.filter (fun p => !(p.1 == k)) ++ [(k, v)]

/-- Removing a field, as the JavaScript `delete` statement does. -/
def delVal (f : Row) (k : String) : Row :=
  f.filter (fun p => !(p.1 == k))

/-- A row carrying a single error field, the `{error: string}` shape. -/
def errRow (msg : String) : Row := [("error", Value.vStr msg)]

/-- Whether a row is an `{error: ...}` result. -/
def rowIsError (r : Row) : Bool := (getVal r "error").isSome

/-! ### The synchronization engine, modelled from the spec

The `@engine` module (the `Frames` class with its `query` and `filter`
methods, the `actions` pattern combinator and the dispatch loop) is code
of this repository that is not under `src/`; only its callers (the sync
files) are.  The definitions in this section are therefore modelled from
the specification, sections 3, 4.2, 4.3 and 4.4. -/
/-- Modelled from the spec (section 4.3, the query step of the missing
engine): one output binding entry maps a result-row field name to the
frame variable it is bound under (the sync call
`frames.query(fn, inputs, { field: variable })`). -/
abbrev OutBinding := List (String × String)

/-- Modelled from the spec (section 4.3): each result row produces one
outgoing frame equal to the incoming frame plus the row fields bound
under the output bindings.  A row that does not carry a requested field
produces no frame: the spec states that an invalid credential makes the
resolution query yield zero frames although `_getUser` answers with a
single error row, so rows lacking the declared fields are dropped. -/
def bindRowFields (f : Frame) (outB : OutBinding) (row : Row) : Option Frame :=
  outB.foldlM
    (fun g fv =>
      match getVal row fv.1 with
      | some v => some (setVal g fv.2 v)
      | none => none)
    f

/-- Modelled from the spec (section 4.3, query fan-out): for each
incoming frame the named query is called with arguments resolved from
the frame; `k` usable rows produce `k` outgoing frames and an empty
result drops the frame entirely. -/
def queryStep (frames : List Frame) (q : Frame → List Row) (outB : OutBinding) :
    List Frame :=
  (frames.map (fun f => (q f).filterMap (bindRowFields f outB))).flatten

/-- Modelled from the spec (section 4.3, the filter step): frames failing
the predicate are dropped. -/
def filterStep (frames : List Frame) (p : Frame → Bool) : List Frame :=
  frames.filter p

/-- Modelled from the spec (section 3): an argument of a `then`
invocation is either a rule variable or a literal (the sync files pass
the literal `undefined` for optional arguments). -/
inductive ArgSrc where
  | var (x : String)
  | lit (v : Value)
deriving DecidableEq, Repr

/-- Modelled from the spec (section 4.4): the dispatcher resolves each
declared invocation argument from the frame; an invocation whose
variables are not all bound in the frame cannot be resolved and is not
dispatched. -/
def resolveArgs (f : Frame) (args : List (String × ArgSrc)) : Option Row :=
  args.foldlM
    (fun acc pa =>
      match pa.2 with
      | ArgSrc.var x =>
        match getVal f x with
        | some v => some (acc ++ [(pa.1, v)])
        | none => none
      | ArgSrc.lit v => some (acc ++ [(pa.1, v)]))
    []

/-- Modelled from the spec (section 3): an entry of the action log. -/
structure ActionEntry where
  name : String
  inputs : Row
  outputs : Row
deriving DecidableEq, Repr

/-- Modelled from the spec (section 3): a pattern field constraint is a
literal (exact equality required) or a wildcard variable. -/
inductive PatElem where
  | lit (v : Value)
  | var (x : String)
deriving DecidableEq, Repr

/-- Modelled from the spec (section 3): a declared action pattern of a
rule, with input constraints and output bindings. -/
structure Pattern where
  actionName : String
  inputPat : List (String × PatElem)
  outputPat : List (String × PatElem)
deriving DecidableEq, Repr

/-- Whether a pattern constrains or binds the `error` output field. -/
def Pattern.mentionsError (p : Pattern) : Bool :=
  p.outputPat.any (fun q => q.1 == "error")

/-- Modelled from the spec (section 4.2): unify the constrained fields of
a record against an accumulated frame.  A literal requires exact
equality, a wildcard binds the variable to the value that is present and
a variable already bound (a join variable shared across patterns) must
agree on its value; an absent field causes no match. -/
def matchFields (pat : List (String × PatElem)) (fields : Row) (acc : Frame) :
    Option Frame :=
  pat.foldlM
    (fun g pe =>
      match getVal fields pe.1 with
      | none => none
      | some v =>
        match pe.2 with
        | PatElem.lit w => if v = w then some g else none
        | PatElem.var x =>
          match getVal g x with
          | none => some (setVal g x v)
          | some w => if v = w then some g else none)
    acc

/-- Modelled from the spec (sections 4.2, 7 and the section 3 error
invariant): matching one entry against one pattern, extending an
accumulated frame.  Success and failure are symmetric and an entry whose
outputs carry an `error` field is terminal, so such an entry matches only
a pattern that explicitly declares the `error` output; a pattern with an
empty output constraint matches any successful entry of its action. -/
def matchEntry (p : Pattern) (e : ActionEntry) (acc : Frame) : Option Frame :=
  if e.name = p.actionName then
    if rowIsError e.outputs && !p.mentionsError then none
    else
      match matchFields p.inputPat e.inputs acc with
      | none => none
      | some g => matchFields p.outputPat e.outputs g
  else none

/-- The observable result of one concept operation call: a map of
success fields, a single `{error: string}` value, or an exception
reaching the caller (a rejected promise) when a store call outside any
try/catch fails. -/
inductive OpOutcome where
  | ok (fields : Row)
  | err (msg : String)
  | thrown (msg : String)
deriving DecidableEq, Repr

def OpOutcome.isThrown : OpOutcome → Bool
  | OpOutcome.thrown _ => true
  | _ => false

namespace Sessioning

/-! ### The Sessioning concept, embedded from `SessioningConcept.ts` -/
/-- Embedded from `SessioningConcept.ts`, `createSession`: guard on a
missing user, then insert a session document whose `expires` is seven
days (in milliseconds) after `now`.  The `insertOne` call is not
wrapped in try/catch in the source, so a failing insert (modelled by
`insertOk = false`) rejects the returned promise.  `freshId` stands for
the generated id. -/
def createSession (sessions : List SessionDoc) (now : Nat) (freshId : String)
    (user : String) (insertOk : Bool) : OpOutcome × List SessionDoc :=
  if user == "" then (OpOutcome.err "User ID must be provided.", sessions)
  else
    let expires := now + 7 * 24 * 60 * 60 * 1000
    if insertOk then
      (OpOutcome.ok [("session", Value.vStr freshId)],
        sessions ++ [{ id := freshId, user := user, created := now, expires := expires }])
    else (OpOutcome.thrown "insertOne rejected", sessions)

/-- Embedded from `SessioningConcept.ts`, `_getUser`: a guard on a falsy
session value, then `findOne({_id: session, expires: {$gt: new Date()}})`;
a hit answers one `{user}` row and a miss one `{error}` row. -/
def _getUser (sessions : List SessionDoc) (now : Nat) (session : Value) :
    List Row :=
  if Value.falsy session then [errRow "Session ID must be provided."]
  else
    match sessions.find? (fun d => decide (Value.vStr d.id = session) && decide (now < d.expires)) with
    | some d => [[("user", Value.vStr d.user)]]
    | none => [errRow "Session not found or expired."]

end Sessioning

/-! ### The Recipe concept, embedded from `RecipeConcept.ts` -/
/-- Removing the first list element satisfying a predicate, the effect of
a Mongo `deleteOne`. -/
def removeFirst (p : α → Bool) : List α → List α
  | [] => []
  | a :: t => if p a then t else a :: removeFirst p t

namespace Recipe

/-- Embedded from `RecipeConcept.ts`, `_getRecipeById`: a guard on a
falsy id, then `findOne({_id: recipe})`; a hit answers one `{recipe}` row
holding the whole document and a miss one `{error}` row. -/
def _getRecipeById (recipes : List RecipeDoc) (recipe : Value) : List Row :=
  if Value.falsy recipe then [errRow "Recipe ID must be provided."]
  else
    match recipes.find? (fun d => decide (Value.vStr d.id = recipe)) with
    | some d => [[("recipe", Value.vRecipeDoc d)]]
    | none => [errRow "Recipe not found."]

/-- Embedded from `RecipeConcept.ts`, `deleteRecipe`: guards on missing
arguments, a lookup, the ownership check, then `deleteOne`.  Returns the
result row together with the recipe store after the call. -/
def deleteRecipe (recipes : List RecipeDoc) (requester recipe : Value) :
    Row × List RecipeDoc :=
  if Value.falsy requester || Value.falsy recipe then
    (errRow "Requester ID and Recipe ID must be provided.", recipes)
  else
    match recipes.find? (fun d => decide (Value.vStr d.id = recipe)) with
    | none => (errRow "Recipe not found.", recipes)
    | some existing =>
      if Value.vStr existing.owner ≠ requester then
        (errRow "Requester is not the owner of the recipe and cannot delete it.", recipes)
      else
        let remaining := removeFirst (fun d => decide (Value.vStr d.id = recipe)) recipes
        if remaining.length = recipes.length then
          (errRow "Failed to delete recipe (might not exist).", recipes)
        else ([], remaining)

end Recipe

namespace Annot

/-! ### The Annotation concept (`AnnotationConcept` in the source),
embedded here under the short namespace `Annot` -/
/-- Embedded from the Annotation concept source, `deleteByRecipe`:
`deleteMany({recipe: recipeId})` removes every stored record whose
`recipe` field equals the given id, and the action answers an empty
success row (the store call is wrapped in try/catch in the source). -/
def deleteByRecipe (annots : List AnnotDoc) (recipeId : Value) :
    Row × List AnnotDoc :=
  ([], annots.filter (fun a => !(decide (Value.vStr a.recipe = recipeId))))

end Annot

/-! ### The delete-recipe rule family, embedded from `recipe.sync.ts` -/
/-- Optional chaining `($[recipeDoc] as any)?.owner` of the sync filters:
the owner field when the value is a recipe document, `undefined`
otherwise. -/
def recipeDocOwner : Value → Value
  | Value.vRecipeDoc d => Value.vStr d.owner
  | _ => Value.vUndefined

/-- Embedded from the sync `DeleteRecipeRequest`: its `when` pattern
matches a `Requesting.request` whose path is the literal
`/Recipe/deleteRecipe`, binding the `recipe` and `session` inputs and the
`request` output. -/
def deleteRequestPat : Pattern :=
  { actionName := "Requesting.request",
    inputPat := [("path", PatElem.lit (Value.vStr "/Recipe/deleteRecipe")),
                 ("recipe", PatElem.var "recipe"),
                 ("session", PatElem.var "session")],
    outputPat := [("request", PatElem.var "request")] }

/-- Embedded from the response syncs of the delete-recipe family: the
request pattern constraining only the path and binding `request`. -/
def deleteReqPathOnlyPat : Pattern :=
  { actionName := "Requesting.request",
    inputPat := [("path", PatElem.lit (Value.vStr "/Recipe/deleteRecipe"))],
    outputPat := [("request", PatElem.var "request")] }

/-- Embedded from the sync `DeleteRecipeResponse`: the second `when`
pattern `[Recipe.deleteRecipe, {}, {}]`. -/
def deleteDonePat : Pattern :=
  { actionName := "Recipe.deleteRecipe", inputPat := [], outputPat := [] }

/-- Embedded from the sync `DeleteRecipeErrorResponse`: the second `when`
pattern `[Recipe.deleteRecipe, {}, {error}]`. -/
def deleteErrPat : Pattern :=
  { actionName := "Recipe.deleteRecipe", inputPat := [],
    outputPat := [("error", PatElem.var "error")] }

/-- Embedded from the sync `CascadeAnnotationDeletion`: the `when`
pattern `[Recipe.deleteRecipe, {recipe}, {}]`. -/
def cascadePat : Pattern :=
  { actionName := "Recipe.deleteRecipe",
    inputPat := [("recipe", PatElem.var "recipe")], outputPat := [] }

/-- Embedded from `DeleteRecipeRequest`: the `then` invocation
`[Recipe.deleteRecipe, {requester, recipe}]`. -/
def deleteThenArgs : List (String × ArgSrc) :=
  [("requester", ArgSrc.var "requester"), ("recipe", ArgSrc.var "recipe")]

/-- The `then` invocation `[Requesting.respond, {request}]` of
`DeleteRecipeResponse`. -/
def respondSuccessArgs : List (String × ArgSrc) :=
  [("request", ArgSrc.var "request")]

/-- The `then` invocation `[Requesting.respond, {request, error}]` of the
error-response syncs. -/
def respondErrArgs : List (String × ArgSrc) :=
  [("request", ArgSrc.var "request"), ("error", ArgSrc.var "error")]

/-- Embedded from `CascadeAnnotationDeletion`: the `then` invocation
`[Annotation.deleteByRecipe, {recipeId: recipe}]`. -/
def cascadeThenArgs : List (String × ArgSrc) :=
  [("recipeId", ArgSrc.var "recipe")]

/-- Embedded from `DeleteRecipeRequest`, the `where` clause: resolve the
requester from the session, load the recipe document, keep only frames
whose requester is the document owner, and on each empty intermediate
result return instead a single error-tagged copy of the frame captured
before the failing step (`originalFrame` before authentication,
`frameAfterRequester` afterwards). -/
def deleteRecipeWhere (sessions : List SessionDoc) (recipes : List RecipeDoc)
    (now : Nat) (frames0 : List Frame) : List Frame :=
  let originalFrame := frames0.headD []
  let frames1 := queryStep frames0
    (fun f => Sessioning._getUser sessions now (getValD f "session"))
    [("user", "requester")]
  if frames1.length = 0 then
    [setVal originalFrame "error" (Value.vStr "Invalid session")]
  else
    let frameAfterRequester := frames1.headD []
    let frames2 := queryStep frames1
      (fun f => Recipe._getRecipeById recipes (getValD f "recipe"))
      [("recipe", "recipeDoc")]
    if frames2.length = 0 then
      [setVal frameAfterRequester "error" (Value.vStr "Recipe not found")]
    else
      let frames3 := filterStep frames2
        (fun f => jsEq (getValD f "requester") (recipeDocOwner (getValD f "recipeDoc")))
      if frames3.length = 0 then
        [setVal frameAfterRequester "error" (Value.vStr "Unauthorized to delete this recipe")]
      else frames3

/-- Embedded from `DeleteRecipeCustomErrorResponse`, the `where` clause:
keep frames whose `error` binding is one of the three precondition error
strings. -/
def deleteCustomErrPred (f : Frame) : Bool :=
  jsEq (getValD f "error") (Value.vStr "Invalid session") ||
    jsEq (getValD f "error") (Value.vStr "Recipe not found") ||
      jsEq (getValD f "error") (Value.vStr "Unauthorized to delete this recipe")

/-- The seed action entry of a delete-recipe trace: the transport
boundary turns the inbound call into a `Requesting.request` entry whose
inputs are the caller-supplied values and whose output binds the request
id (spec section 6). -/
def seedDeleteEntry (rq s r : String) : ActionEntry :=
  { name := "Requesting.request",
    inputs := [("path", Value.vStr "/Recipe/deleteRecipe"),
               ("recipe", Value.vStr r), ("session", Value.vStr s)],
    outputs := [("request", Value.vStr rq)] }

/-- The result of executing one delete-recipe trace: the action log
entries together with the final recipe and Annotation stores. -/
structure DeleteTraceResult where
  entries : List ActionEntry
  recipes : List RecipeDoc
  annots : List AnnotDoc
deriving DecidableEq, Repr

/-- A `Requesting.respond` invocation entry with the given arguments. -/
def mkRespond (args : Row) : ActionEntry :=
  { name := "Requesting.respond", inputs := args, outputs := [] }

/-- Modelled from the spec (sections 2, 4.2 and 4.4, the engine loop that
is not under `src/`): the complete execution of one delete-recipe trace
against the registered delete-recipe rule family.  The seed entry
activates `DeleteRecipeRequest` (single-pattern match, `where`
enrichment, dispatch of every resolvable `then` invocation; the single
seed frame yields at most one surviving invocation here because each
query of the `where` clause answers at most one usable row) and
`DeleteRecipeCustomErrorResponse`; an appended `Recipe.deleteRecipe`
entry then activates the join rules `DeleteRecipeResponse` and
`DeleteRecipeErrorResponse` and the reactive `CascadeAnnotationDeletion`;
rules of other routes never match the path literal. -/
def runDeleteTrace (sessions : List SessionDoc) (recipes : List RecipeDoc)
    (annots : List AnnotDoc) (now : Nat) (rq s r : String) : DeleteTraceResult :=
  let e1 := seedDeleteEntry rq s r
  let seedFrames := (matchEntry deleteRequestPat e1 []).toList
  let survivors := deleteRecipeWhere sessions recipes now seedFrames
  let deleteInvocations := survivors.filterMap (fun f => resolveArgs f deleteThenArgs)
  let customFrames := filterStep ((matchEntry deleteReqPathOnlyPat e1 []).toList)
    deleteCustomErrPred
  let customResponds := (customFrames.filterMap (fun f => resolveArgs f respondErrArgs)).map
    mkRespond
  match deleteInvocations with
  | [] => { entries := [e1] ++ customResponds, recipes := recipes, annots := annots }
  | args :: _ =>
    let result := Recipe.deleteRecipe recipes (getValD args "requester") (getValD args "recipe")
    let e2 : ActionEntry :=
      { name := "Recipe.deleteRecipe", inputs := args, outputs := result.1 }
    let successFrames :=
      ((matchEntry deleteReqPathOnlyPat e1 []).bind (matchEntry deleteDonePat e2)).toList
    let successResponds :=
      (successFrames.filterMap (fun f => resolveArgs f respondSuccessArgs)).map mkRespond
    let errFrames :=
      ((matchEntry deleteReqPathOnlyPat e1 []).bind (matchEntry deleteErrPat e2)).toList
    let errResponds := (errFrames.filterMap (fun f => resolveArgs f respondErrArgs)).map mkRespond
    let cascadeInvocations :=
      ((matchEntry cascadePat e2 []).toList).filterMap (fun f => resolveArgs f cascadeThenArgs)
    match cascadeInvocations with
    | [] =>
      { entries := [e1, e2] ++ successResponds ++ errResponds ++ customResponds,
        recipes := result.2, annots := annots }
    | cargs :: _ =>
      let cleanup := Annot.deleteByRecipe annots (getValD cargs "recipeId")
      let e3 : ActionEntry :=
        { name := "Annotation.deleteByRecipe", inputs := cargs, outputs := cleanup.1 }
      { entries := [e1, e2] ++ successResponds ++ errResponds ++ customResponds ++ [e3],
        recipes := result.2, annots := cleanup.2 }

/-- The terminal response entries of a trace. -/
def respondEntries (t : List ActionEntry) : List ActionEntry :=
  t.filter (fun e => e.name == "Requesting.respond")

/-- The cascade-cleanup invocation entries of a trace. -/
def cascadeEntries (t : List ActionEntry) : List ActionEntry :=
  t.filter (fun e => e.name == "Annotation.deleteByRecipe")

/-- The delete-recipe invocation entries of a trace. -/
def deleteRecipeEntries (t : List ActionEntry) : List ActionEntry :=
  t.filter (fun e => e.name == "Recipe.deleteRecipe")

/-- The user a session credential resolves to: the `user` field of the
single row `_getUser` answers, `none` when that row is an error row. -/
def sessionUserOf (sessions : List SessionDoc) (now : Nat) (s : String) :
    Option String :=
  match getVal ((Sessioning._getUser sessions now (Value.vStr s)).headD []) "user" with
  | some (Value.vStr u) => some u
  | _ => none

/-- The recipe document a recipe id resolves to: the `recipe` field of
the single row `_getRecipeById` answers, `none` when that row is an
error row. -/
def recipeFound (recipes : List RecipeDoc) (r : String) : Option RecipeDoc :=
  match getVal ((Recipe._getRecipeById recipes (Value.vStr r)).headD []) "recipe" with
  | some (Value.vRecipeDoc d) => some d
  | _ => none

/-- Whether the dispatched `Recipe.deleteRecipe` call of a delete-recipe
trace completes successfully. -/
def deleteSucceeds (sessions : List SessionDoc) (recipes : List RecipeDoc)
    (now : Nat) (s r : String) : Bool :=
  match sessionUserOf sessions now s with
  | some u => !(rowIsError (Recipe.deleteRecipe recipes (Value.vStr u) (Value.vStr r)).1)
  | none => false

/-- The frame produced by matching the seed entry against the
`DeleteRecipeRequest` pattern. -/
def seedDeleteFrame (rq s r : String) : Frame :=
  [("recipe", Value.vStr r), ("session", Value.vStr s), ("request", Value.vStr rq)]

/-- A concrete unauthorized scenario: session `s1` resolves to user `U2`
while recipe `R1` is owned by `U1`. -/
def c1Sessions : List SessionDoc :=
  [{ id := "s1", user := "U2", created := 0, expires := 10 }]

def c1Recipe : RecipeDoc :=
  { id := "R1", owner := "U1", title := "Pasta", description := none,
    ingredients := [{ name := "noodles", quantity := "1", unit := none, notes := none }],
    steps := [{ description := "boil", notes := none }],
    tags := [], forkedFrom := none, created := 0, updated := 0 }

/-- The outgoing frame the spec describes for one result row of a query
step: the incoming frame's bindings plus the row's fields bound under
the declared output bindings (spec section 4.3). -/
def rowExtendedFrame (f : Frame) (outB : OutBinding) (row : Row) : Frame :=
  outB.foldl
    (fun g fv =>
      match getVal row fv.1 with
      | some v => setVal g fv.2 v
      | none => g)
    f

/-- Embedded from `annotation.sync.ts`, the sync `AnnotateRequest`: its
`when` pattern matches a `/Annotation/annotate` request, binding the
session and the payload inputs — a caller-supplied `author` input field
is not part of the pattern and never enters the frame. -/
def annotatePat : Pattern :=
  { actionName := "Requesting.request",
    inputPat := [("path", PatElem.lit (Value.vStr "/Annotation/annotate")),
                 ("session", PatElem.var "session"),
                 ("recipe", PatElem.var "recipe"),
                 ("targetKind", PatElem.var "targetKind"),
                 ("index", PatElem.var "index"),
                 ("text", PatElem.var "text")],
    outputPat := [("request", PatElem.var "request")] }

/-- Embedded from `AnnotateRequest`, the `where` clause: authenticate
the session to bind the real author; on an empty result return one
error-tagged copy of the original frame. -/
def annotateWhere (sessions : List SessionDoc) (now : Nat) (frames0 : List Frame) :
    List Frame :=
  let originalFrame := frames0.headD []
  let frames1 := queryStep frames0
    (fun f => Sessioning._getUser sessions now (getValD f "session"))
    [("user", "author")]
  if frames1.length = 0 then
    [setVal originalFrame "error" (Value.vStr "Invalid session")]
  else frames1

/-- Embedded from `AnnotateRequest`: the `then` invocation
`[Annotation.annotate, {author, recipe, targetKind, index, text}]`. -/
def annotateThenArgs : List (String × ArgSrc) :=
  [("author", ArgSrc.var "author"), ("recipe", ArgSrc.var "recipe"),
   ("targetKind", ArgSrc.var "targetKind"), ("index", ArgSrc.var "index"),
   ("text", ArgSrc.var "text")]

/-- A seed `/Annotation/annotate` request entry, carrying a
caller-supplied `author` input field next to the legitimate inputs. -/
def seedAnnotateEntry (rq s : String)
    (recipe targetKind index text claimedAuthor : Value) : ActionEntry :=
  { name := "Requesting.request",
    inputs := [("path", Value.vStr "/Annotation/annotate"),
               ("session", Value.vStr s), ("recipe", recipe),
               ("targetKind", targetKind), ("index", index), ("text", text),
               ("author", claimedAuthor)],
    outputs := [("request", Value.vStr rq)] }

/-- The `Annotation.annotate` invocation the engine dispatches for an
annotate request entry: match the `when` pattern, run the `where`
clause, resolve the `then` arguments of the first surviving frame. -/
def dispatchedAnnotate (sessions : List SessionDoc) (now : Nat) (e : ActionEntry) :
    Option Row :=
  match (annotateWhere sessions now ((matchEntry annotatePat e []).toList)).filterMap
      (fun f => resolveArgs f annotateThenArgs) with
  | args :: _ => some args
  | [] => none

/-- Embedded from the create-recipe sync file, the sync
`CreateRecipeRequest`: its `when` pattern matches a
`/Recipe/createRecipe` request, binding the session, title, ingredients
and steps inputs — a caller-supplied `owner` input field is not part of
the pattern and never enters the frame. -/
def createRecipePat : Pattern :=
  { actionName := "Requesting.request",
    inputPat := [("path", PatElem.lit (Value.vStr "/Recipe/createRecipe")),
                 ("session", PatElem.var "session"),
                 ("title", PatElem.var "title"),
                 ("ingredients", PatElem.var "ingredients"),
                 ("steps", PatElem.var "steps")],
    outputPat := [("request", PatElem.var "request")] }

/-- Embedded from `CreateRecipeRequest`, the `where` clause:
authenticate the session to bind the owner, keep the frames whose owner
binding is a string, and on an empty result return one error-tagged
copy of the original frame. -/
def createRecipeReqWhere (sessions : List SessionDoc) (now : Nat)
    (frames0 : List Frame) : List Frame :=
  let originalFrame := frames0.headD []
  let frames1 := queryStep frames0
    (fun f => Sessioning._getUser sessions now (getValD f "session"))
    [("user", "owner")]
  let frames2 := filterStep frames1
    (fun f => match getVal f "owner" with
      | some (Value.vStr _) => true
      | _ => false)
  if frames2.length = 0 then
    [setVal originalFrame "error" (Value.vStr "Session invalid or expired.")]
  else frames2

/-- Embedded from `CreateRecipeRequest`: the `then` invocation
`[Recipe.createRecipe, {owner, title, ingredients, steps,
description: undefined, forkedFrom: undefined}]`. -/
def createRecipeThenArgs : List (String × ArgSrc) :=
  [("owner", ArgSrc.var "owner"), ("title", ArgSrc.var "title"),
   ("ingredients", ArgSrc.var "ingredients"), ("steps", ArgSrc.var "steps"),
   ("description", ArgSrc.lit Value.vUndefined),
   ("forkedFrom", ArgSrc.lit Value.vUndefined)]

/-- A seed `/Recipe/createRecipe` request entry, carrying a
caller-supplied `owner` input field next to the legitimate inputs. -/
def seedCreateRecipeEntry (rq s : String)
    (title ingredients steps claimedOwner : Value) : ActionEntry :=
  { name := "Requesting.request",
    inputs := [("path", Value.vStr "/Recipe/createRecipe"),
               ("session", Value.vStr s), ("title", title),
               ("ingredients", ingredients), ("steps", steps),
               ("owner", claimedOwner)],
    outputs := [("request", Value.vStr rq)] }

/-- The `Recipe.createRecipe` invocation the engine dispatches for a
create-recipe request entry: match the `when` pattern, run the `where`
clause, resolve the `then` arguments of the first surviving frame. -/
def dispatchedCreateRecipe (sessions : List SessionDoc) (now : Nat)
    (e : ActionEntry) : Option Row :=
  match (createRecipeReqWhere sessions now
      ((matchEntry createRecipePat e []).toList)).filterMap
      (fun f => resolveArgs f createRecipeThenArgs) with
  | args :: _ => some args
  | [] => none

/-- Embedded from `notebook.sync.ts`, the helper `hasErrorInFrame`:
whether a frame carries a string under the `error` key. -/
def hasErrorInFrame (f : Frame) : Bool :=
  match getVal f "error" with
  | some (Value.vStr _) => true
  | _ => false

/-- Embedded from `notebook.sync.ts`, the helper `frameWith`: a clone of
the frame with the update fields assigned over it. -/
def frameWith (f : Frame) (updates : Row) : Frame :=
  updates.foldl (fun g kv => setVal g kv.1 kv.2) f

namespace Notebook

/-- Embedded from `NotebookConcept.ts`, `_getNotebookById`:
`findOne({_id: notebook})`; a hit answers one `{notebook}` row holding
the whole document and a miss one `{error}` row. -/
def _getNotebookById (notebooks : List NotebookDocument) (notebook : Value) :
    List Row :=
  match notebooks.find? (fun d => decide (Value.vStr d.id = notebook)) with
  | some d => [[("notebook", Value.vNotebookDoc d)]]
  | none => [errRow "Notebook not found."]

end Notebook

/-- Optional chaining `($[notebookDoc] as any)?.members.includes($[sharer])`
of the share filter: membership of the sharer value in the notebook
document's members list. -/
def notebookMembersInclude (v : Value) (x : Value) : Bool :=
  match v with
  | Value.vNotebookDoc d =>
    match x with
    | Value.vStr s => d.members.contains s
    | _ => false
  | _ => false

/-- Embedded from `ShareRecipeRequest_SuccessPath`, step 4: the single
relationship predicate, one filter whose body is the disjunction
`sharer === recipeDoc.owner || notebookDoc.members.includes(sharer)`. -/
def sharePred (f : Frame) : Bool :=
  jsEq (getValD f "sharer") (recipeDocOwner (getValD f "recipeDoc")) ||
    notebookMembersInclude (getValD f "notebookDoc") (getValD f "sharer")

/-- Embedded from `ShareRecipeRequest_SuccessPath`, the `where` clause:
resolve the sharer from the session, load the recipe and the notebook,
keep only frames passing the single disjunctive relationship predicate;
each empty intermediate result returns one error-tagged copy of the
original (seed) frame instead. -/
def shareRecipeWhere (sessions : List SessionDoc) (recipes : List RecipeDoc)
    (notebooks : List NotebookDocument) (now : Nat) (frames0 : List Frame) :
    List Frame :=
  let originalFrame := frames0.headD []
  let frames1 := queryStep frames0
    (fun f => Sessioning._getUser sessions now (getValD f "session"))
    [("user", "sharer")]
  if frames1.length = 0 ∨ hasErrorInFrame (frames1.headD []) = true then
    [frameWith originalFrame [("error", Value.vStr "Session invalid or user not found.")]]
  else
    let frames2 := queryStep frames1
      (fun f => Recipe._getRecipeById recipes (getValD f "recipe"))
      [("recipe", "recipeDoc")]
    if frames2.length = 0 ∨ hasErrorInFrame (frames2.headD []) = true then
      [frameWith originalFrame [("error", Value.vStr "Recipe not found.")]]
    else
      let frames3 := queryStep frames2
        (fun f => Notebook._getNotebookById notebooks (getValD f "notebook"))
        [("notebook", "notebookDoc")]
      if frames3.length = 0 ∨ hasErrorInFrame (frames3.headD []) = true then
        [frameWith originalFrame [("error", Value.vStr "Notebook not found.")]]
      else
        let frames4 := filterStep frames3 sharePred
        if frames4.length = 0 then
          [frameWith originalFrame
            [("error",
              Value.vStr "Only the recipe owner or notebook members can share this recipe.")]]
        else frames4

/-- Embedded from `ShareRecipeRequest_SuccessPath`: the `then`
invocation `[Notebook.shareRecipe, {sharer, recipe, notebook}]`. -/
def shareThenArgs : List (String × ArgSrc) :=
  [("sharer", ArgSrc.var "sharer"), ("recipe", ArgSrc.var "recipe"),
   ("notebook", ArgSrc.var "notebook")]

/-- The frame produced by matching a seed `/Notebook/shareRecipe`
request entry against the `ShareRecipeRequest_SuccessPath` pattern
(inputs `session`, `notebook`, `recipe`; output `request`). -/
def seedShareFrame (rq s nb rc : String) : Frame :=
  [("session", Value.vStr s), ("notebook", Value.vStr nb),
   ("recipe", Value.vStr rc), ("request", Value.vStr rq)]

/-- The notebook document a notebook id resolves to: the `notebook`
field of the single row `_getNotebookById` answers. -/
def notebookFound (notebooks : List NotebookDocument) (nb : String) :
    Option NotebookDocument :=
  match getVal ((Notebook._getNotebookById notebooks (Value.vStr nb)).headD []) "notebook" with
  | some (Value.vNotebookDoc d) => some d
  | _ => none

/-- The fully-joined frame of the share path: the seed frame extended by
the sharer, recipe document and notebook document bindings. -/
def shareJoinedFrame (rq s nb rc : String) (u : String) (rd : RecipeDoc)
    (nd : NotebookDocument) : Frame :=
  setVal (setVal (setVal (seedShareFrame rq s nb rc) "sharer" (Value.vStr u))
    "recipeDoc" (Value.vRecipeDoc rd)) "notebookDoc" (Value.vNotebookDoc nd)

namespace Requesting

/-- Modelled from the spec (section 6): `_getRequestById` answers the
persisted request document for a request id; its implementation is not
under `src/` (the sync obtains it by name from the Requesting concept). -/
def _getRequestById (requests : List RequestDoc) (request : Value) : List Row :=
  match requests.find? (fun d => decide (Value.vStr d.id = request)) with
  | some d => [[("requestDoc", Value.vRequestDoc d)]]
  | none => [errRow "Request not found."]

end Requesting

/-- The `requestRecord?.input ?? {}` access of
`UpdateRecipeDetailsRequest`: the stored input map of a request
document value, empty for anything else. -/
def requestInputOf (v : Value) : Row :=
  match v with
  | Value.vRequestDoc d => d.input.map (fun kv => (kv.1, kv.2.toValue))
  | _ => []

/-- Embedded from `UpdateRecipeDetailsRequest`: one optional payload
field of the final frame — set when the stored input defines it,
deleted otherwise (`maybeX !== undefined`). -/
def applyOptionalField (input : Row) (key : String) (f : Frame) : Frame :=
  let mv := getValD input key
  if mv = Value.vUndefined then delVal f key else setVal f key mv

/-- Embedded from `UpdateRecipeDetailsRequest`, the `where` clause: load
the persisted request document, authenticate the session, load the
recipe, check ownership, then build the final frame by setting or
deleting each optional update field from the stored request input. -/
def updateRecipeWhere (requests : List RequestDoc) (sessions : List SessionDoc)
    (recipes : List RecipeDoc) (now : Nat) (frames0 : List Frame) : List Frame :=
  let originalFrame := frames0.headD []
  let frames1 := queryStep frames0
    (fun f => Requesting._getRequestById requests (getValD f "request"))
    [("requestDoc", "requestDoc")]
  if frames1.length = 0 then
    [setVal originalFrame "error" (Value.vStr "Original request not found")]
  else
    let requestInput := requestInputOf (getValD (frames1.headD []) "requestDoc")
    let frames2 := queryStep frames1
      (fun f => Sessioning._getUser sessions now (getValD f "session"))
      [("user", "requester")]
    if frames2.length = 0 then
      [setVal originalFrame "error" (Value.vStr "Invalid session")]
    else
      let frames3 := queryStep frames2
        (fun f => Recipe._getRecipeById recipes (getValD f "recipe"))
        [("recipe", "recipeDoc")]
      if frames3.length = 0 then
        [setVal originalFrame "error" (Value.vStr "Recipe not found")]
      else
        let frames4 := filterStep frames3
          (fun f => jsEq (getValD f "requester") (recipeDocOwner (getValD f "recipeDoc")))
        if frames4.length = 0 then
          [setVal originalFrame "error" (Value.vStr "Unauthorized to update this recipe")]
        else
          let finalFrame := frames4.headD []
          [applyOptionalField requestInput "newSteps"
            (applyOptionalField requestInput "newIngredients"
              (applyOptionalField requestInput "newDescription"
                (applyOptionalField requestInput "newTitle" finalFrame)))]

/-- The frame produced by matching a seed `/Recipe/updateRecipeDetails`
request entry against the `UpdateRecipeDetailsRequest` pattern (inputs
`session`, `recipe`; output `request`). -/
def seedUpdateFrame (rq s rc : String) : Frame :=
  [("session", Value.vStr s), ("recipe", Value.vStr rc), ("request", Value.vStr rq)]

/-- A concrete successful update-recipe scenario used by the C7
witness. -/
def c7Requests : List RequestDoc :=
  [{ id := "rq1", input := [("newTitle", ValueLit.lStr "T2")] }]

def c7Sessions : List SessionDoc :=
  [{ id := "s1", user := "U1", created := 0, expires := 10 }]

def c7Recipe : RecipeDoc :=
  { id := "R1", owner := "U1", title := "t", description := none,
    ingredients := [{ name := "i", quantity := "1", unit := none, notes := none }],
    steps := [{ description := "s", notes := none }],
    tags := [], forkedFrom := none, created := 0, updated := 0 }

def c7Frame : Frame :=
  [("session", Value.vStr "s1"), ("recipe", Value.vStr "R1"),
   ("request", Value.vStr "rq1"),
   ("requestDoc", Value.vRequestDoc { id := "rq1", input := [("newTitle", ValueLit.lStr "T2")] }),
   ("requester", Value.vStr "U1"), ("recipeDoc", Value.vRecipeDoc c7Recipe),
   ("newTitle", Value.vStr "T2")]

/-- The JavaScript `String.prototype.trim`: drop whitespace at both
ends (written structurally so that it evaluates in the kernel). -/
def strTrim (s : String) : String :=
  String.mk (((s.data.dropWhile Char.isWhitespace).reverse.dropWhile
    Char.isWhitespace).reverse)

namespace Notebook

/-- Embedded from `NotebookConcept.ts`, `createNotebook`: guard on an
empty (or whitespace) title, then insert a new notebook whose members
list is `[owner]`.  The `insertOne` call is not wrapped in try/catch in
the source, so a failing insert (modelled by `insertOk = false`)
rejects the returned promise.  `freshId` stands for the generated id. -/
def createNotebook (notebooks : List NotebookDocument) (now : Nat) (freshId : String)
    (owner title : String) (description : Option String) (insertOk : Bool) :
    OpOutcome × List NotebookDocument :=
  if title == "" || strTrim title == "" then
    (OpOutcome.err "Notebook title cannot be empty.", notebooks)
  else
    let newNotebook : NotebookDocument :=
      { id := freshId, owner := owner, title := strTrim title,
        description := description.map strTrim, members := [owner], recipes := [],
        created := now }
    if insertOk then
      (OpOutcome.ok [("notebook", Value.vStr freshId)], notebooks ++ [newNotebook])
    else (OpOutcome.thrown "insertOne rejected", notebooks)

end Notebook

namespace Recipe

/-- Embedded from `RecipeConcept.ts`, `createRecipe`: the validation
guard chain, the optional parent-recipe check, then the insert, which
the source wraps in try/catch — a failing insert (modelled by
`insertOk = false`) is returned as an `{error}` value, never thrown.
`freshId` stands for the generated id. -/
def createRecipe (recipes : List RecipeDoc) (now : Nat) (freshId : String)
    (owner title : String) (ingredients : List Ingredient) (steps : List Step)
    (description : Option String) (forkedFrom : Option String) (insertOk : Bool) :
    OpOutcome × List RecipeDoc :=
  if owner == "" then (OpOutcome.err "Owner ID must be provided.", recipes)
  else if title == "" || strTrim title == "" then
    (OpOutcome.err "Recipe title cannot be empty.", recipes)
  else if ingredients.isEmpty then
    (OpOutcome.err "Recipe must have at least one ingredient.", recipes)
  else if steps.isEmpty then
    (OpOutcome.err "Recipe must have at least one step.", recipes)
  else if ingredients.any (fun i => i.name == "" || i.quantity == "") then
    (OpOutcome.err "Each ingredient must have a name and quantity.", recipes)
  else if steps.any (fun st => st.description == "") then
    (OpOutcome.err "Each step must have a description.", recipes)
  else
    let parentMissing : Bool :=
      match forkedFrom with
      | some pid => (recipes.find? (fun d => d.id == pid)).isNone
      | none => false
    if parentMissing then
      (OpOutcome.err "Parent recipe (forkedFrom) does not exist.", recipes)
    else
      let newRecipe : RecipeDoc :=
        { id := freshId, owner := owner, title := title,
          description := description, ingredients := ingredients, steps := steps,
          tags := [], forkedFrom := forkedFrom, created := now, updated := now }
      if insertOk then
        (OpOutcome.ok [("recipe", Value.vStr freshId)], recipes ++ [newRecipe])
      else (OpOutcome.err "Failed to create recipe due to a database error.", recipes)

end Recipe

/-- Updating the first list element satisfying a predicate, the effect
of a Mongo `updateOne`. -/
def updateFirst (p : α → Bool) (g : α → α) : List α → List α
  | [] => []
  | a :: t => if p a then g a :: t else a :: updateFirst p g t

/-- The effect of Mongo `$addToSet`: append the element unless already
present. -/
def addToSet (l : List String) (x : String) : List String :=
  if l.contains x then l else l ++ [x]

namespace Notebook

/-- Embedded from `NotebookConcept.ts`, `inviteMember`: lookup, owner
check, already-member check, then `$addToSet` on the members list. -/
def inviteMember (notebooks : List NotebookDocument) (owner notebook member : String) :
    Row × List NotebookDocument :=
  match notebooks.find? (fun d => decide (d.id = notebook)) with
  | none => (errRow "Notebook not found.", notebooks)
  | some doc =>
    if doc.owner ≠ owner then
      (errRow "Only the notebook owner can invite members.", notebooks)
    else if doc.members.contains member then
      (errRow "User is already a member of this notebook.", notebooks)
    else
      ([], updateFirst (fun d => decide (d.id = notebook))
        (fun d => { d with members := addToSet d.members member }) notebooks)

/-- Embedded from `NotebookConcept.ts`, `removeMember`: lookup, owner
check, the owner-cannot-remove-themselves check, membership check, then
`$pull` on the members list. -/
def removeMember (notebooks : List NotebookDocument) (owner notebook member : String) :
    Row × List NotebookDocument :=
  match notebooks.find? (fun d => decide (d.id = notebook)) with
  | none => (errRow "Notebook not found.", notebooks)
  | some doc =>
    if doc.owner ≠ owner then
      (errRow "Only the notebook owner can remove members.", notebooks)
    else if member = owner then
      (errRow "The owner cannot remove themselves from the notebook.", notebooks)
    else if !(doc.members.contains member) then
      (errRow "User is not a member of this notebook.", notebooks)
    else
      ([], updateFirst (fun d => decide (d.id = notebook))
        (fun d => { d with members := d.members.filter (fun m => !(m == member)) }) notebooks)

/-- Embedded from `NotebookConcept.ts`, `shareRecipe`: lookup,
already-shared check, then `$addToSet` on the recipes list (the
membership commentary in the source performs no state change). -/
def shareRecipe (notebooks : List NotebookDocument) (sharer recipe notebook : String) :
    Row × List NotebookDocument :=
  match notebooks.find? (fun d => decide (d.id = notebook)) with
  | none => (errRow "Notebook not found.", notebooks)
  | some doc =>
    if doc.recipes.contains recipe then
      (errRow "Recipe is already shared in this notebook.", notebooks)
    else
      ([], updateFirst (fun d => decide (d.id = notebook))
        (fun d => { d with recipes := addToSet d.recipes recipe }) notebooks)

/-- Embedded from `NotebookConcept.ts`, `unshareRecipe`: lookup,
shared check, then `$pull` on the recipes list (the requester
commentary in the source performs no state change). -/
def unshareRecipe (notebooks : List NotebookDocument) (requester recipe notebook : String) :
    Row × List NotebookDocument :=
  match notebooks.find? (fun d => decide (d.id = notebook)) with
  | none => (errRow "Notebook not found.", notebooks)
  | some doc =>
    if !(doc.recipes.contains recipe) then
      (errRow "Recipe is not shared in this notebook.", notebooks)
    else
      ([], updateFirst (fun d => decide (d.id = notebook))
        (fun d => { d with recipes := d.recipes.filter (fun r => !(r == recipe)) }) notebooks)

/-- Embedded from `NotebookConcept.ts`, `deleteNotebook`: lookup, owner
check, then `deleteOne`. -/
def deleteNotebook (notebooks : List NotebookDocument) (owner notebook : String) :
    Row × List NotebookDocument :=
  match notebooks.find? (fun d => decide (d.id = notebook)) with
  | none => (errRow "Notebook not found.", notebooks)
  | some doc =>
    if doc.owner ≠ owner then
      (errRow "Only the notebook owner can delete the notebook.", notebooks)
    else ([], removeFirst (fun d => decide (d.id = notebook)) notebooks)

end Notebook

/-- One invocation of a Notebook concept operation, with its caller
arguments (`freshId` standing for the id `createNotebook` generates;
store writes assumed to succeed). -/
inductive NotebookOp where
  | create (freshId : String) (now : Nat) (owner title : String) (description : Option String)
  | invite (owner notebook member : String)
  | removeM (owner notebook member : String)
  | share (sharer recipe notebook : String)
  | unshare (requester recipe notebook : String)
  | delete (owner notebook : String)
deriving DecidableEq, Repr

/-- The state effect of one Notebook operation. -/
def applyNotebookOp (st : List NotebookDocument) : NotebookOp → List NotebookDocument
  | NotebookOp.create freshId now owner title description =>
    (Notebook.createNotebook st now freshId owner title description true).2
  | NotebookOp.invite owner notebook member =>
    (Notebook.inviteMember st owner notebook member).2
  | NotebookOp.removeM owner notebook member =>
    (Notebook.removeMember st owner notebook member).2
  | NotebookOp.share sharer recipe notebook =>
    (Notebook.shareRecipe st sharer recipe notebook).2
  | NotebookOp.unshare requester recipe notebook =>
    (Notebook.unshareRecipe st requester recipe notebook).2
  | NotebookOp.delete owner notebook =>
    (Notebook.deleteNotebook st owner notebook).2

/-- The notebook store reached by a sequence of Notebook operations. -/
def applyNotebookOps (ops : List NotebookOp) (st : List NotebookDocument) :
    List NotebookDocument :=
  ops.foldl applyNotebookOp st

end Nibble

namespace Nibble

theorem getVal_cons (p : String × Value) (t : Row) (k : String) :
    getVal (p :: t) k = if p.1 = k then some p.2 else getVal t k := by
  by_cases h : p.1 = k
  · rw [getVal, List.find?_cons_of_pos _ (by simpa using h), if_pos h]; rfl
  · rw [getVal, List.find?_cons_of_neg _ (by simpa using h), if_neg h]; rfl

theorem getVal_setVal_self (f : Row) (k : String) (v : Value) :
    getVal (setVal f k v) k = some v := by
  induction f with
  | nil => simp [setVal, getVal_cons]
  | cons p t ih =>
    by_cases h : p.1 = k
    · simpa [setVal, List.filter_cons, h] using ih
    · simpa [setVal, List.filter_cons, h, getVal_cons] using ih

theorem getVal_setVal_ne (f : Row) (k k2 : String) (v : Value) (h : k ≠ k2) :
    getVal (setVal f k v) k2 = getVal f k2 := by
  induction f with
  | nil => simp [setVal, getVal_cons, h, getVal]
  | cons p t ih =>
    by_cases hp : p.1 = k
    · rw [getVal_cons, if_neg (by rw [hp]; exact h)]
      simpa [setVal, List.filter_cons, hp] using ih
    · by_cases hp2 : p.1 = k2
      · simp [setVal, List.filter_cons, hp, getVal_cons, hp2, Ne.symm h]
      · simp only [getVal_cons, if_neg hp2]
        simpa [setVal, List.filter_cons, hp, getVal_cons, hp2] using ih

theorem getVal_delVal_ne (f : Row) (k k2 : String) (h : k ≠ k2) :
    getVal (delVal f k) k2 = getVal f k2 := by
  induction f with
  | nil => rfl
  | cons p t ih =>
    by_cases hp : p.1 = k
    · rw [getVal_cons, if_neg (by rw [hp]; exact h)]
      simpa [delVal, List.filter_cons, hp] using ih
    · by_cases hp2 : p.1 = k2
      · simp [delVal, List.filter_cons, hp, getVal_cons, hp2, Ne.symm h]
      · simp only [getVal_cons, if_neg hp2]
        simpa [delVal, List.filter_cons, hp, getVal_cons, hp2] using ih

/-! ### Characterization lemmas for the delete-recipe trace -/
theorem matchEntry_seed (rq s r : String) :
    matchEntry deleteRequestPat (seedDeleteEntry rq s r) [] =
      some (seedDeleteFrame rq s r) := rfl

theorem matchEntry_pathOnly (rq s r : String) :
    matchEntry deleteReqPathOnlyPat (seedDeleteEntry rq s r) [] =
      some [("request", Value.vStr rq)] := rfl

theorem customFrames_empty (rq s r : String) :
    filterStep ((matchEntry deleteReqPathOnlyPat (seedDeleteEntry rq s r) []).toList)
      deleteCustomErrPred = [] := rfl

theorem queryStep_singleton (f : Frame) (q : Frame → List Row) (b : OutBinding) :
    queryStep [f] q b = (q f).filterMap (bindRowFields f b) := by
  simp [queryStep]

theorem getUser_eq_err {sessions : List SessionDoc} {now : Nat} {s : String}
    (h : sessionUserOf sessions now s = none) :
    ∃ msg, Sessioning._getUser sessions now (Value.vStr s) = [errRow msg] := by
  unfold Sessioning._getUser
  by_cases hf : Value.falsy (Value.vStr s)
  · exact ⟨_, by rw [if_pos hf]⟩
  · rw [if_neg hf]
    cases hfind : sessions.find?
        (fun d => decide (Value.vStr d.id = Value.vStr s) && decide (now < d.expires)) with
    | some d =>
      exfalso
      unfold sessionUserOf at h
      unfold Sessioning._getUser at h
      rw [if_neg hf, hfind] at h
      simp [getVal_cons, getVal] at h
    | none => exact ⟨_, rfl⟩

theorem getUser_eq_user {sessions : List SessionDoc} {now : Nat} {s u : String}
    (h : sessionUserOf sessions now s = some u) :
    Sessioning._getUser sessions now (Value.vStr s) = [[("user", Value.vStr u)]] := by
  unfold sessionUserOf at h
  unfold Sessioning._getUser at h ⊢
  by_cases hf : Value.falsy (Value.vStr s)
  · rw [if_pos hf] at h; simp [errRow, getVal_cons, getVal] at h
  · rw [if_neg hf] at h ⊢
    cases hfind : sessions.find?
        (fun d => decide (Value.vStr d.id = Value.vStr s) && decide (now < d.expires)) with
    | some d =>
      rw [hfind] at h
      have h2 : d.user = u := by simpa [getVal_cons, getVal] using h
      show [[("user", Value.vStr d.user)]] = _
      rw [h2]
    | none =>
      rw [hfind] at h
      simp [errRow, getVal_cons, getVal] at h

theorem getRecipe_eq_err {recipes : List RecipeDoc} {r : String}
    (h : recipeFound recipes r = none) :
    ∃ msg, Recipe._getRecipeById recipes (Value.vStr r) = [errRow msg] := by
  unfold Recipe._getRecipeById
  by_cases hf : Value.falsy (Value.vStr r)
  · exact ⟨_, by rw [if_pos hf]⟩
  · rw [if_neg hf]
    cases hfind : recipes.find? (fun d => decide (Value.vStr d.id = Value.vStr r)) with
    | some d =>
      exfalso
      unfold recipeFound at h
      unfold Recipe._getRecipeById at h
      rw [if_neg hf, hfind] at h
      simp [getVal_cons, getVal] at h
    | none => exact ⟨_, rfl⟩

theorem getRecipe_eq_doc {recipes : List RecipeDoc} {r : String} {rd : RecipeDoc}
    (h : recipeFound recipes r = some rd) :
    Recipe._getRecipeById recipes (Value.vStr r) = [[("recipe", Value.vRecipeDoc rd)]] := by
  unfold recipeFound at h
  unfold Recipe._getRecipeById at h ⊢
  by_cases hf : Value.falsy (Value.vStr r)
  · rw [if_pos hf] at h; simp [errRow, getVal_cons, getVal] at h
  · rw [if_neg hf] at h ⊢
    cases hfind : recipes.find? (fun d => decide (Value.vStr d.id = Value.vStr r)) with
    | some d =>
      rw [hfind] at h
      have h2 : d = rd := by simpa [getVal_cons, getVal] using h
      show [[("recipe", Value.vRecipeDoc d)]] = _
      rw [h2]
    | none =>
      rw [hfind] at h
      simp [errRow, getVal_cons, getVal] at h

theorem where_noSession {sessions : List SessionDoc} {recipes : List RecipeDoc}
    {now : Nat} {s : String} (rq r : String)
    (h : sessionUserOf sessions now s = none) :
    deleteRecipeWhere sessions recipes now [seedDeleteFrame rq s r] =
      [setVal (seedDeleteFrame rq s r) "error" (Value.vStr "Invalid session")] := by
  obtain ⟨msg, hmsg⟩ := getUser_eq_err h
  unfold deleteRecipeWhere
  rw [queryStep_singleton]
  have hsess : getValD (seedDeleteFrame rq s r) "session" = Value.vStr s := rfl
  rw [hsess, hmsg]
  rfl

theorem where_noRecipe {sessions : List SessionDoc} {recipes : List RecipeDoc}
    {now : Nat} {s u r : String} (rq : String)
    (hu : sessionUserOf sessions now s = some u)
    (hr : recipeFound recipes r = none) :
    deleteRecipeWhere sessions recipes now [seedDeleteFrame rq s r] =
      [setVal (setVal (seedDeleteFrame rq s r) "requester" (Value.vStr u)) "error"
        (Value.vStr "Recipe not found")] := by
  obtain ⟨msg, hmsg⟩ := getRecipe_eq_err hr
  unfold deleteRecipeWhere
  rw [queryStep_singleton]
  have hsess : getValD (seedDeleteFrame rq s r) "session" = Value.vStr s := rfl
  rw [hsess, getUser_eq_user hu]
  rw [show ([[("user", Value.vStr u)]] : List Row).filterMap
        (bindRowFields (seedDeleteFrame rq s r) [("user", "requester")]) =
      [setVal (seedDeleteFrame rq s r) "requester" (Value.vStr u)] from rfl]
  simp only [List.length_cons, List.length_nil]
  rw [if_neg (by simp)]
  rw [queryStep_singleton]
  have hrec : getValD (setVal (seedDeleteFrame rq s r) "requester" (Value.vStr u)) "recipe" =
      Value.vStr r := rfl
  rw [List.headD_cons, hrec, hmsg]
  rfl

theorem where_notOwner {sessions : List SessionDoc} {recipes : List RecipeDoc}
    {now : Nat} {s u r : String} {rd : RecipeDoc} (rq : String)
    (hu : sessionUserOf sessions now s = some u)
    (hr : recipeFound recipes r = some rd)
    (ho : rd.owner ≠ u) :
    deleteRecipeWhere sessions recipes now [seedDeleteFrame rq s r] =
      [setVal (setVal (seedDeleteFrame rq s r) "requester" (Value.vStr u)) "error"
        (Value.vStr "Unauthorized to delete this recipe")] := by
  unfold deleteRecipeWhere
  rw [queryStep_singleton]
  have hsess : getValD (seedDeleteFrame rq s r) "session" = Value.vStr s := rfl
  rw [hsess, getUser_eq_user hu]
  rw [show ([[("user", Value.vStr u)]] : List Row).filterMap
        (bindRowFields (seedDeleteFrame rq s r) [("user", "requester")]) =
      [setVal (seedDeleteFrame rq s r) "requester" (Value.vStr u)] from rfl]
  simp only [List.length_cons, List.length_nil]
  rw [if_neg (by simp)]
  rw [queryStep_singleton]
  have hrec : getValD (setVal (seedDeleteFrame rq s r) "requester" (Value.vStr u)) "recipe" =
      Value.vStr r := rfl
  rw [List.headD_cons, hrec, getRecipe_eq_doc hr]
  rw [show ([[("recipe", Value.vRecipeDoc rd)]] : List Row).filterMap
        (bindRowFields (setVal (seedDeleteFrame rq s r) "requester" (Value.vStr u))
          [("recipe", "recipeDoc")]) =
      [setVal (setVal (seedDeleteFrame rq s r) "requester" (Value.vStr u)) "recipeDoc"
        (Value.vRecipeDoc rd)] from rfl]
  simp only [List.length_cons, List.length_nil]
  rw [if_neg (by simp)]
  have h1 : getValD (setVal (setVal (seedDeleteFrame rq s r) "requester" (Value.vStr u))
      "recipeDoc" (Value.vRecipeDoc rd)) "requester" = Value.vStr u := by
    unfold getValD
    rw [getVal_setVal_ne _ _ _ _ (by decide), getVal_setVal_self]
    rfl
  have h2 : getValD (setVal (setVal (seedDeleteFrame rq s r) "requester" (Value.vStr u))
      "recipeDoc" (Value.vRecipeDoc rd)) "recipeDoc" = Value.vRecipeDoc rd := by
    unfold getValD
    rw [getVal_setVal_self]
    rfl
  unfold filterStep
  simp only [List.filter_cons, List.filter_nil]
  rw [h1, h2]
  simp [jsEq, recipeDocOwner, Ne.symm ho]

theorem where_owner {sessions : List SessionDoc} {recipes : List RecipeDoc}
    {now : Nat} {s u r : String} {rd : RecipeDoc} (rq : String)
    (hu : sessionUserOf sessions now s = some u)
    (hr : recipeFound recipes r = some rd)
    (ho : rd.owner = u) :
    deleteRecipeWhere sessions recipes now [seedDeleteFrame rq s r] =
      [setVal (setVal (seedDeleteFrame rq s r) "requester" (Value.vStr u)) "recipeDoc"
        (Value.vRecipeDoc rd)] := by
  unfold deleteRecipeWhere
  rw [queryStep_singleton]
  have hsess : getValD (seedDeleteFrame rq s r) "session" = Value.vStr s := rfl
  rw [hsess, getUser_eq_user hu]
  rw [show ([[("user", Value.vStr u)]] : List Row).filterMap
        (bindRowFields (seedDeleteFrame rq s r) [("user", "requester")]) =
      [setVal (seedDeleteFrame rq s r) "requester" (Value.vStr u)] from rfl]
  simp only [List.length_cons, List.length_nil]
  rw [if_neg (by simp)]
  rw [queryStep_singleton]
  have hrec : getValD (setVal (seedDeleteFrame rq s r) "requester" (Value.vStr u)) "recipe" =
      Value.vStr r := rfl
  rw [List.headD_cons, hrec, getRecipe_eq_doc hr]
  rw [show ([[("recipe", Value.vRecipeDoc rd)]] : List Row).filterMap
        (bindRowFields (setVal (seedDeleteFrame rq s r) "requester" (Value.vStr u))
          [("recipe", "recipeDoc")]) =
      [setVal (setVal (seedDeleteFrame rq s r) "requester" (Value.vStr u)) "recipeDoc"
        (Value.vRecipeDoc rd)] from rfl]
  simp only [List.length_cons, List.length_nil]
  rw [if_neg (by simp)]
  have h1 : getValD (setVal (setVal (seedDeleteFrame rq s r) "requester" (Value.vStr u))
      "recipeDoc" (Value.vRecipeDoc rd)) "requester" = Value.vStr u := by
    unfold getValD
    rw [getVal_setVal_ne _ _ _ _ (by decide), getVal_setVal_self]
    rfl
  have h2 : getValD (setVal (setVal (seedDeleteFrame rq s r) "requester" (Value.vStr u))
      "recipeDoc" (Value.vRecipeDoc rd)) "recipeDoc" = Value.vRecipeDoc rd := by
    unfold getValD
    rw [getVal_setVal_self]
    rfl
  unfold filterStep
  simp only [List.filter_cons, List.filter_nil]
  rw [h1, h2]
  simp [jsEq, recipeDocOwner, ho]

theorem optToList_some {α : Type} (a : α) : (some a).toList = [a] := rfl

theorem optToList_none {α : Type} : (none : Option α).toList = ([] : List α) := rfl

theorem resolveArgs_delete {f : Frame} {vu vr : Value}
    (h1 : getVal f "requester" = some vu) (h2 : getVal f "recipe" = some vr) :
    resolveArgs f deleteThenArgs = some [("requester", vu), ("recipe", vr)] := by
  simp [resolveArgs, deleteThenArgs, List.foldlM_cons, List.foldlM_nil, h1, h2]

theorem resolveArgs_delete_none {f : Frame}
    (h1 : getVal f "requester" = none) :
    resolveArgs f deleteThenArgs = none := by
  simp [resolveArgs, deleteThenArgs, List.foldlM_cons, List.foldlM_nil, h1]

theorem getVal_f1_requester (rq s r : String) (v : Value) :
    getVal (setVal (seedDeleteFrame rq s r) "requester" v) "requester" = some v :=
  getVal_setVal_self _ _ _

theorem getVal_f1_recipe (rq s r : String) (v : Value) :
    getVal (setVal (seedDeleteFrame rq s r) "requester" v) "recipe" =
      some (Value.vStr r) := by
  rw [getVal_setVal_ne _ _ _ _ (by decide)]; rfl

/-- In every branch reached after a successful credential resolution, the
`where` clause of `DeleteRecipeRequest` yields exactly one surviving
frame, and that frame binds the session-derived requester and the
requested recipe id. -/
theorem where_survivor {sessions : List SessionDoc} {recipes : List RecipeDoc}
    {now : Nat} {s u : String} (rq r : String)
    (hu : sessionUserOf sessions now s = some u) :
    ∃ g, deleteRecipeWhere sessions recipes now [seedDeleteFrame rq s r] = [g] ∧
      getVal g "requester" = some (Value.vStr u) ∧
      getVal g "recipe" = some (Value.vStr r) := by
  cases hrd : recipeFound recipes r with
  | none =>
    refine ⟨_, where_noRecipe rq hu hrd, ?_, ?_⟩
    · rw [getVal_setVal_ne _ _ _ _ (by decide), getVal_f1_requester]
    · rw [getVal_setVal_ne _ _ _ _ (by decide), getVal_f1_recipe]
  | some rd =>
    by_cases ho : rd.owner = u
    · refine ⟨_, where_owner rq hu hrd ho, ?_, ?_⟩
      · rw [getVal_setVal_ne _ _ _ _ (by decide), getVal_f1_requester]
      · rw [getVal_setVal_ne _ _ _ _ (by decide), getVal_f1_recipe]
    · refine ⟨_, where_notOwner rq hu hrd ho, ?_, ?_⟩
      · rw [getVal_setVal_ne _ _ _ _ (by decide), getVal_f1_requester]
      · rw [getVal_setVal_ne _ _ _ _ (by decide), getVal_f1_recipe]

/-- Every `Recipe.deleteRecipe` call answers either the empty success row
or a single error row. -/
theorem deleteRecipe_cases (recipes : List RecipeDoc) (vu vr : Value) :
    (Recipe.deleteRecipe recipes vu vr).1 = [] ∨
      ∃ msg, (Recipe.deleteRecipe recipes vu vr).1 = errRow msg := by
  unfold Recipe.deleteRecipe
  dsimp only
  split
  · exact Or.inr ⟨_, rfl⟩
  · split
    · exact Or.inr ⟨_, rfl⟩
    · split
      · exact Or.inr ⟨_, rfl⟩
      · split
        · exact Or.inr ⟨_, rfl⟩
        · exact Or.inl rfl

/-- A `Recipe.deleteRecipe` call either leaves the store unchanged or
succeeds with the empty row. -/
theorem deleteRecipe_state_or (recipes : List RecipeDoc) (vu vr : Value) :
    (Recipe.deleteRecipe recipes vu vr).2 = recipes ∨
      (Recipe.deleteRecipe recipes vu vr).1 = [] := by
  unfold Recipe.deleteRecipe
  dsimp only
  split
  · exact Or.inl rfl
  · split
    · exact Or.inl rfl
    · split
      · exact Or.inl rfl
      · split
        · exact Or.inl rfl
        · exact Or.inr rfl

/-- An erroring `Recipe.deleteRecipe` call leaves the recipe store
unchanged. -/
theorem deleteRecipe_err_state {recipes : List RecipeDoc} {vu vr : Value} {msg : String}
    (h : (Recipe.deleteRecipe recipes vu vr).1 = errRow msg) :
    (Recipe.deleteRecipe recipes vu vr).2 = recipes := by
  rcases deleteRecipe_state_or recipes vu vr with h2 | h2
  · exact h2
  · rw [h] at h2
    exact absurd h2 (by simp [errRow])

/-- The delete-recipe trace when the session does not resolve: the
single error-tagged frame lacks a `requester` binding, so no invocation
is dispatched and the trace stops at the seed entry with no response. -/
theorem run_noSession {sessions : List SessionDoc} {recipes : List RecipeDoc}
    {annots : List AnnotDoc} {now : Nat} {s : String} (rq r : String)
    (h : sessionUserOf sessions now s = none) :
    runDeleteTrace sessions recipes annots now rq s r =
      { entries := [seedDeleteEntry rq s r], recipes := recipes, annots := annots } := by
  have hreq : getVal (setVal (seedDeleteFrame rq s r) "error" (Value.vStr "Invalid session"))
      "requester" = none := by
    rw [getVal_setVal_ne _ _ _ _ (by decide)]; rfl
  simp only [runDeleteTrace, matchEntry_seed, optToList_some, where_noSession rq r h,
    customFrames_empty, List.filterMap_cons, List.filterMap_nil, List.map_nil,
    resolveArgs_delete_none hreq, List.append_nil]

/-- The delete-recipe trace when the session resolves to `u` and the
dispatched `Recipe.deleteRecipe` call errors: the ownership-checking
rule dispatches the call anyway, the call refuses, and the single
response is the error response joined from the error entry. -/
theorem run_deleteErr {sessions : List SessionDoc} {recipes : List RecipeDoc}
    {annots : List AnnotDoc} {now : Nat} {s u : String} {msg : String} (rq r : String)
    (hu : sessionUserOf sessions now s = some u)
    (hrow : (Recipe.deleteRecipe recipes (Value.vStr u) (Value.vStr r)).1 = errRow msg) :
    runDeleteTrace sessions recipes annots now rq s r =
      { entries := [seedDeleteEntry rq s r,
          { name := "Recipe.deleteRecipe",
            inputs := [("requester", Value.vStr u), ("recipe", Value.vStr r)],
            outputs := errRow msg },
          mkRespond [("request", Value.vStr rq), ("error", Value.vStr msg)]],
        recipes := (Recipe.deleteRecipe recipes (Value.vStr u) (Value.vStr r)).2,
        annots := annots } := by
  obtain ⟨g, hg, hgr, hgc⟩ := @where_survivor sessions recipes now s u rq r hu
  simp only [runDeleteTrace, matchEntry_seed, optToList_some, hg, customFrames_empty,
    List.filterMap_cons, List.filterMap_nil, resolveArgs_delete hgr hgc]
  have hargs1 : getValD [("requester", Value.vStr u), ("recipe", Value.vStr r)] "requester" =
      Value.vStr u := rfl
  have hargs2 : getValD [("requester", Value.vStr u), ("recipe", Value.vStr r)] "recipe" =
      Value.vStr r := rfl
  rw [hargs1, hargs2, hrow]
  rfl

/-- The delete-recipe trace when the session resolves to `u` and the
dispatched `Recipe.deleteRecipe` call succeeds: one success response and
the cascade invocation that removes the annotations of the recipe. -/
theorem run_deleteOk {sessions : List SessionDoc} {recipes : List RecipeDoc}
    {annots : List AnnotDoc} {now : Nat} {s u : String} (rq r : String)
    (hu : sessionUserOf sessions now s = some u)
    (hrow : (Recipe.deleteRecipe recipes (Value.vStr u) (Value.vStr r)).1 = []) :
    runDeleteTrace sessions recipes annots now rq s r =
      { entries := [seedDeleteEntry rq s r,
          { name := "Recipe.deleteRecipe",
            inputs := [("requester", Value.vStr u), ("recipe", Value.vStr r)],
            outputs := [] },
          mkRespond [("request", Value.vStr rq)],
          { name := "Annotation.deleteByRecipe",
            inputs := [("recipeId", Value.vStr r)], outputs := [] }],
        recipes := (Recipe.deleteRecipe recipes (Value.vStr u) (Value.vStr r)).2,
        annots := annots.filter (fun a => !(decide (Value.vStr a.recipe = Value.vStr r))) } := by
  obtain ⟨g, hg, hgr, hgc⟩ := @where_survivor sessions recipes now s u rq r hu
  simp only [runDeleteTrace, matchEntry_seed, optToList_some, hg, customFrames_empty,
    List.filterMap_cons, List.filterMap_nil, resolveArgs_delete hgr hgc]
  have hargs1 : getValD [("requester", Value.vStr u), ("recipe", Value.vStr r)] "requester" =
      Value.vStr u := rfl
  have hargs2 : getValD [("requester", Value.vStr u), ("recipe", Value.vStr r)] "recipe" =
      Value.vStr r := rfl
  rw [hargs1, hargs2, hrow]
  rfl

theorem recipeFound_some_elim {recipes : List RecipeDoc} {r : String} {rd : RecipeDoc}
    (h : recipeFound recipes r = some rd) :
    Value.falsy (Value.vStr r) = false ∧
      recipes.find? (fun d => decide (Value.vStr d.id = Value.vStr r)) = some rd := by
  unfold recipeFound at h
  unfold Recipe._getRecipeById at h
  by_cases hf : Value.falsy (Value.vStr r)
  · rw [if_pos hf] at h
    simp [errRow, getVal_cons, getVal] at h
  · rw [if_neg hf] at h
    refine ⟨by simpa using hf, ?_⟩
    cases hfind : recipes.find? (fun d => decide (Value.vStr d.id = Value.vStr r)) with
    | some d =>
      rw [hfind] at h
      have h2 : d = rd := by simpa [getVal_cons, getVal] using h
      rw [h2]
    | none =>
      rw [hfind] at h
      simp [errRow, getVal_cons, getVal] at h

/-- `Recipe.deleteRecipe` called with a non-empty requester who is not
the owner of an existing recipe refuses with the ownership error and
changes nothing. -/
theorem deleteRecipe_notOwner {recipes : List RecipeDoc} {r u : String} {rd : RecipeDoc}
    (hune : u ≠ "") (hr : recipeFound recipes r = some rd) (ho : rd.owner ≠ u) :
    Recipe.deleteRecipe recipes (Value.vStr u) (Value.vStr r) =
      (errRow "Requester is not the owner of the recipe and cannot delete it.", recipes) := by
  obtain ⟨hf, hfind⟩ := recipeFound_some_elim hr
  have hrne : ¬ r = "" := by simpa [Value.falsy] using hf
  have hg : (Value.falsy (Value.vStr u) || Value.falsy (Value.vStr r)) = false := by
    simp [Value.falsy, hune, hrne]
  unfold Recipe.deleteRecipe
  rw [hg]
  simp only [Bool.false_eq_true, if_false, hfind]
  rw [if_pos (show Value.vStr rd.owner ≠ Value.vStr u from by simpa using ho)]

/-- C1 counterexample.  In the concrete unauthorized scenario (session
resolves to `U2`, recipe `R1` owned by `U1`), the claim fails on three
counts: one frame (not zero) survives the delete rule's enrichment, the
precondition-error rule `DeleteRecipeCustomErrorResponse` keeps zero
frames (not one), and `Recipe.deleteRecipe` is invoked once. -/
theorem C1_counterexample :
    (deleteRecipeWhere c1Sessions [c1Recipe] 5 [seedDeleteFrame "rq1" "s1" "R1"]).length = 1 ∧
      filterStep ((matchEntry deleteReqPathOnlyPat (seedDeleteEntry "rq1" "s1" "R1") []).toList)
        deleteCustomErrPred = [] ∧
      (deleteRecipeEntries
        (runDeleteTrace c1Sessions [c1Recipe] [] 5 "rq1" "s1" "R1").entries).length = 1 :=
  ⟨rfl, rfl, rfl⟩

/-- C1 (amended).  For every delete-recipe request whose session
credential resolves to a user `u2` distinct from the owner of the
existing target recipe, the delete rule's enrichment yields exactly one
surviving frame, tagged with the error `Unauthorized to delete this
recipe` but still binding the session-derived requester; that frame
dispatches `Recipe.deleteRecipe`, which refuses with the ownership error
and deletes nothing; the filter-based precondition-error rule yields
zero frames; and the trace carries exactly one (error) response, the
recipe and annotation stores unchanged. -/
theorem C1_delete_authorization (sessions : List SessionDoc) (recipes : List RecipeDoc)
    (annots : List AnnotDoc) (now : Nat) (rq s r u2 : String) (rd : RecipeDoc)
    (hu : sessionUserOf sessions now s = some u2)
    (hu2 : u2 ≠ "")
    (hr : recipeFound recipes r = some rd)
    (ho : rd.owner ≠ u2) :
    deleteRecipeWhere sessions recipes now [seedDeleteFrame rq s r] =
      [setVal (setVal (seedDeleteFrame rq s r) "requester" (Value.vStr u2)) "error"
        (Value.vStr "Unauthorized to delete this recipe")] ∧
    runDeleteTrace sessions recipes annots now rq s r =
      { entries := [seedDeleteEntry rq s r,
          { name := "Recipe.deleteRecipe",
            inputs := [("requester", Value.vStr u2), ("recipe", Value.vStr r)],
            outputs := errRow "Requester is not the owner of the recipe and cannot delete it." },
          mkRespond [("request", Value.vStr rq),
            ("error",
              Value.vStr "Requester is not the owner of the recipe and cannot delete it.")]],
        recipes := recipes, annots := annots } := by
  have hdel := deleteRecipe_notOwner hu2 hr ho
  refine ⟨where_notOwner rq hu hr ho, ?_⟩
  rw [run_deleteErr rq r hu (by rw [hdel]), hdel]

/-- C1 witness: the amended statement applied to the concrete
unauthorized scenario. -/
theorem C1_delete_authorization_witness :
    deleteRecipeWhere c1Sessions [c1Recipe] 5 [seedDeleteFrame "rq1" "s1" "R1"] =
      [setVal (setVal (seedDeleteFrame "rq1" "s1" "R1") "requester" (Value.vStr "U2")) "error"
        (Value.vStr "Unauthorized to delete this recipe")] ∧
    runDeleteTrace c1Sessions [c1Recipe] [] 5 "rq1" "s1" "R1" =
      { entries := [seedDeleteEntry "rq1" "s1" "R1",
          { name := "Recipe.deleteRecipe",
            inputs := [("requester", Value.vStr "U2"), ("recipe", Value.vStr "R1")],
            outputs := errRow "Requester is not the owner of the recipe and cannot delete it." },
          mkRespond [("request", Value.vStr "rq1"),
            ("error",
              Value.vStr "Requester is not the owner of the recipe and cannot delete it.")]],
        recipes := [c1Recipe], annots := [] } :=
  C1_delete_authorization c1Sessions [c1Recipe] [] 5 "rq1" "s1" "R1" "U2" c1Recipe
    rfl (by decide) rfl (by decide)

/-- C2 counterexample.  A well-formed delete-recipe trace whose session
credential does not resolve produces zero terminal response entries, not
exactly one. -/
theorem C2_counterexample :
    (respondEntries (runDeleteTrace [] [] [] 0 "rq1" "s1" "R1").entries).length = 0 := rfl

/-- C2 (amended).  A delete-recipe trace appends exactly one terminal
response entry when the session credential resolves to a user — whether
the dispatched `Recipe.deleteRecipe` succeeds or errors — and zero
response entries when it does not resolve, because the request rule's
error-tagged frame is not visible to the separate filter-based
precondition-error rule. -/
theorem C2_response_count (sessions : List SessionDoc) (recipes : List RecipeDoc)
    (annots : List AnnotDoc) (now : Nat) (rq s r : String) :
    (respondEntries (runDeleteTrace sessions recipes annots now rq s r).entries).length =
      if (sessionUserOf sessions now s).isSome then 1 else 0 := by
  cases hu : sessionUserOf sessions now s with
  | none => rw [run_noSession rq r hu]; rfl
  | some u =>
    rcases deleteRecipe_cases recipes (Value.vStr u) (Value.vStr r) with hrow | ⟨msg, hrow⟩
    · rw [run_deleteOk rq r hu hrow]; rfl
    · rw [run_deleteErr rq r hu hrow]; rfl

/-- C6: whenever the dispatched `Recipe.deleteRecipe` of a delete-recipe
trace completes successfully, the separate rule
`CascadeAnnotationDeletion`, reacting to the success entry, appends
exactly one `Annotation.deleteByRecipe` invocation with `recipeId = r`,
and the final annotation store retains exactly the annotations whose
recipe differs from `r`; when the delete errs or is never dispatched, no
cleanup invocation fires and the annotation store is untouched, the
delete rule itself never naming an annotation operation. -/
theorem C6_cascade_cleanup (sessions : List SessionDoc) (recipes : List RecipeDoc)
    (annots : List AnnotDoc) (now : Nat) (rq s r : String) :
    cascadeEntries (runDeleteTrace sessions recipes annots now rq s r).entries =
      (if deleteSucceeds sessions recipes now s r then
        [{ name := "Annotation.deleteByRecipe",
           inputs := [("recipeId", Value.vStr r)], outputs := [] }]
      else []) ∧
    (runDeleteTrace sessions recipes annots now rq s r).annots =
      (if deleteSucceeds sessions recipes now s r then
        annots.filter (fun a => !(decide (Value.vStr a.recipe = Value.vStr r)))
      else annots) := by
  cases hu : sessionUserOf sessions now s with
  | none =>
    rw [run_noSession rq r hu]
    unfold deleteSucceeds
    rw [hu]
    exact ⟨rfl, rfl⟩
  | some u =>
    unfold deleteSucceeds
    rw [hu]
    dsimp only
    rcases deleteRecipe_cases recipes (Value.vStr u) (Value.vStr r) with hrow | ⟨msg, hrow⟩
    · rw [run_deleteOk rq r hu hrow, hrow]
      exact ⟨rfl, rfl⟩
    · rw [run_deleteErr rq r hu hrow, hrow]
      exact ⟨rfl, rfl⟩

theorem bindRowFields_total (outB : OutBinding) (row : Row) (f : Frame)
    (h : ∀ fv ∈ outB, (getVal row fv.1).isSome) :
    bindRowFields f outB row = some (rowExtendedFrame f outB row) := by
  induction outB generalizing f with
  | nil => rfl
  | cons fv t ih =>
    obtain ⟨v, hv⟩ := Option.isSome_iff_exists.mp (h fv (List.mem_cons_self fv t))
    simp only [bindRowFields, rowExtendedFrame, List.foldlM_cons, List.foldl_cons, hv]
    exact ih (setVal f fv.2 v) (fun fv2 hm => h fv2 (List.mem_cons_of_mem fv hm))

theorem filterMap_of_total {α β : Type} (l : List α) (F : α → Option β) (G : α → β)
    (h : ∀ a ∈ l, F a = some (G a)) : l.filterMap F = l.map G := by
  induction l with
  | nil => rfl
  | cons a t ih =>
    rw [List.filterMap_cons, h a (List.mem_cons_self a t), List.map_cons]
    rw [ih (fun b hb => h b (List.mem_cons_of_mem a hb))]

/-- C3: for one incoming frame, a query step whose `k` result rows all
carry the declared output fields produces exactly `k` outgoing frames,
the `i`-th being the incoming frame's bindings plus the `i`-th row's
fields bound under the declared output bindings; a query returning zero
rows drops the frame entirely. -/
theorem C3_query_fanout (f : Frame) (q : Frame → List Row) (outB : OutBinding)
    (hwf : ∀ row ∈ q f, ∀ fv ∈ outB, (getVal row fv.1).isSome) :
    (queryStep [f] q outB).length = (q f).length ∧
      queryStep [f] q outB = (q f).map (rowExtendedFrame f outB) ∧
      (q f = [] → queryStep [f] q outB = []) := by
  have hmap : queryStep [f] q outB = (q f).map (rowExtendedFrame f outB) := by
    rw [queryStep_singleton]
    exact filterMap_of_total (q f) _ _ (fun row hrow => bindRowFields_total outB row f (hwf row hrow))
  refine ⟨by rw [hmap, List.length_map], hmap, fun hq => ?_⟩
  rw [hmap, hq]
  rfl

/-- C3 witness: a concrete query answering two rows fans one frame out
into exactly the two described frames, and an empty answer drops it. -/
theorem C3_query_fanout_witness :
    (queryStep [[("a", Value.vStr "x")]]
        (fun _ => [[("user", Value.vStr "u1")], [("user", Value.vStr "u2")]])
        [("user", "owner")]).length = 2 ∧
      queryStep [[("a", Value.vStr "x")]]
        (fun _ => [[("user", Value.vStr "u1")], [("user", Value.vStr "u2")]])
        [("user", "owner")] =
        [[("user", Value.vStr "u1")], [("user", Value.vStr "u2")]].map
          (rowExtendedFrame [("a", Value.vStr "x")] [("user", "owner")]) ∧
      (([[("user", Value.vStr "u1")], [("user", Value.vStr "u2")]] : List Row) = [] →
        queryStep [[("a", Value.vStr "x")]]
          (fun _ => [[("user", Value.vStr "u1")], [("user", Value.vStr "u2")]])
          [("user", "owner")] = []) := by
  have h := C3_query_fanout [("a", Value.vStr "x")]
    (fun _ => [[("user", Value.vStr "u1")], [("user", Value.vStr "u2")]])
    [("user", "owner")] (by decide)
  exact ⟨h.1, h.2.1, h.2.2⟩

theorem annotateWhere_valid {sessions : List SessionDoc} {now : Nat} {s u : String}
    (rq : String) (recipe targetKind index text : Value)
    (hu : sessionUserOf sessions now s = some u) :
    annotateWhere sessions now
        [[("session", Value.vStr s), ("recipe", recipe), ("targetKind", targetKind),
          ("index", index), ("text", text), ("request", Value.vStr rq)]] =
      [setVal [("session", Value.vStr s), ("recipe", recipe), ("targetKind", targetKind),
          ("index", index), ("text", text), ("request", Value.vStr rq)] "author"
        (Value.vStr u)] := by
  unfold annotateWhere
  rw [queryStep_singleton]
  have hsess : getValD [("session", Value.vStr s), ("recipe", recipe),
      ("targetKind", targetKind), ("index", index), ("text", text),
      ("request", Value.vStr rq)] "session" = Value.vStr s := rfl
  rw [hsess, getUser_eq_user hu]
  rfl

theorem createRecipeWhere_valid {sessions : List SessionDoc} {now : Nat} {s u : String}
    (rq : String) (title ingredients steps : Value)
    (hu : sessionUserOf sessions now s = some u) :
    createRecipeReqWhere sessions now
        [[("session", Value.vStr s), ("title", title), ("ingredients", ingredients),
          ("steps", steps), ("request", Value.vStr rq)]] =
      [setVal [("session", Value.vStr s), ("title", title), ("ingredients", ingredients),
          ("steps", steps), ("request", Value.vStr rq)] "owner" (Value.vStr u)] := by
  unfold createRecipeReqWhere
  rw [queryStep_singleton]
  have hsess : getValD [("session", Value.vStr s), ("title", title),
      ("ingredients", ingredients), ("steps", steps),
      ("request", Value.vStr rq)] "session" = Value.vStr s := rfl
  rw [hsess, getUser_eq_user hu]
  rfl

/-- C4: the principal passed to a protected mutating operation is
resolved from the opaque session credential via `Sessioning._getUser`,
never taken from a caller-supplied identity field.  For
`AnnotateRequest`: any two `/Annotation/annotate` requests with the
same session but arbitrary, possibly different claimed `author` input
values dispatch the same invocation, whose `author` argument is the
session-derived user.  For `CreateRecipeRequest`: any two
`/Recipe/createRecipe` requests with the same session but arbitrary,
possibly different claimed `owner` input values dispatch the same
invocation, whose `owner` argument is the session-derived user. -/
theorem C4_principal_from_session (sessions : List SessionDoc) (now : Nat)
    (rq1 rq2 s : String) (recipe targetKind index text a1 a2 : Value)
    (title ingredients steps o1 o2 : Value) (u : String)
    (hu : sessionUserOf sessions now s = some u) :
    (dispatchedAnnotate sessions now (seedAnnotateEntry rq1 s recipe targetKind index text a1) =
      some [("author", Value.vStr u), ("recipe", recipe), ("targetKind", targetKind),
            ("index", index), ("text", text)] ∧
    dispatchedAnnotate sessions now (seedAnnotateEntry rq2 s recipe targetKind index text a2) =
      dispatchedAnnotate sessions now (seedAnnotateEntry rq1 s recipe targetKind index text a1)) ∧
    (dispatchedCreateRecipe sessions now
        (seedCreateRecipeEntry rq1 s title ingredients steps o1) =
      some [("owner", Value.vStr u), ("title", title), ("ingredients", ingredients),
            ("steps", steps), ("description", Value.vUndefined),
            ("forkedFrom", Value.vUndefined)] ∧
    dispatchedCreateRecipe sessions now
        (seedCreateRecipeEntry rq2 s title ingredients steps o2) =
      dispatchedCreateRecipe sessions now
        (seedCreateRecipeEntry rq1 s title ingredients steps o1)) := by
  have key : ∀ rq : String, ∀ a : Value,
      dispatchedAnnotate sessions now (seedAnnotateEntry rq s recipe targetKind index text a) =
        some [("author", Value.vStr u), ("recipe", recipe), ("targetKind", targetKind),
              ("index", index), ("text", text)] := by
    intro rq a
    unfold dispatchedAnnotate
    rw [show matchEntry annotatePat (seedAnnotateEntry rq s recipe targetKind index text a) [] =
        some [("session", Value.vStr s), ("recipe", recipe), ("targetKind", targetKind),
              ("index", index), ("text", text), ("request", Value.vStr rq)] from rfl]
    rw [optToList_some, annotateWhere_valid rq recipe targetKind index text hu]
    rfl
  have key2 : ∀ rq : String, ∀ o : Value,
      dispatchedCreateRecipe sessions now
          (seedCreateRecipeEntry rq s title ingredients steps o) =
        some [("owner", Value.vStr u), ("title", title), ("ingredients", ingredients),
              ("steps", steps), ("description", Value.vUndefined),
              ("forkedFrom", Value.vUndefined)] := by
    intro rq o
    unfold dispatchedCreateRecipe
    rw [show matchEntry createRecipePat
          (seedCreateRecipeEntry rq s title ingredients steps o) [] =
        some [("session", Value.vStr s), ("title", title), ("ingredients", ingredients),
              ("steps", steps), ("request", Value.vStr rq)] from rfl]
    rw [optToList_some, createRecipeWhere_valid rq title ingredients steps hu]
    rfl
  exact ⟨⟨key rq1 a1, by rw [key rq1 a1, key rq2 a2]⟩,
    ⟨key2 rq1 o1, by rw [key2 rq1 o1, key2 rq2 o2]⟩⟩

/-- C4 witness: a concrete session store where `s1` resolves to `U9`;
two annotate requests claiming authors `Mallory` and `Alice` both
dispatch `annotate` with author `U9`, and two create-recipe requests
claiming owners `Mallory` and `Alice` both dispatch `createRecipe`
with owner `U9`. -/
theorem C4_principal_from_session_witness :
    (dispatchedAnnotate [{ id := "s1", user := "U9", created := 0, expires := 10 }] 5
        (seedAnnotateEntry "rq1" "s1" (Value.vStr "R1") (Value.vStr "Step")
          (Value.vNum 0) (Value.vStr "hi") (Value.vStr "Mallory")) =
      some [("author", Value.vStr "U9"), ("recipe", Value.vStr "R1"),
            ("targetKind", Value.vStr "Step"), ("index", Value.vNum 0),
            ("text", Value.vStr "hi")] ∧
    dispatchedAnnotate [{ id := "s1", user := "U9", created := 0, expires := 10 }] 5
        (seedAnnotateEntry "rq2" "s1" (Value.vStr "R1") (Value.vStr "Step")
          (Value.vNum 0) (Value.vStr "hi") (Value.vStr "Alice")) =
      dispatchedAnnotate [{ id := "s1", user := "U9", created := 0, expires := 10 }] 5
        (seedAnnotateEntry "rq1" "s1" (Value.vStr "R1") (Value.vStr "Step")
          (Value.vNum 0) (Value.vStr "hi") (Value.vStr "Mallory"))) ∧
    (dispatchedCreateRecipe [{ id := "s1", user := "U9", created := 0, expires := 10 }] 5
        (seedCreateRecipeEntry "rq1" "s1" (Value.vStr "Pasta") (Value.vIngredients [])
          (Value.vSteps []) (Value.vStr "Mallory")) =
      some [("owner", Value.vStr "U9"), ("title", Value.vStr "Pasta"),
            ("ingredients", Value.vIngredients []), ("steps", Value.vSteps []),
            ("description", Value.vUndefined), ("forkedFrom", Value.vUndefined)] ∧
    dispatchedCreateRecipe [{ id := "s1", user := "U9", created := 0, expires := 10 }] 5
        (seedCreateRecipeEntry "rq2" "s1" (Value.vStr "Pasta") (Value.vIngredients [])
          (Value.vSteps []) (Value.vStr "Alice")) =
      dispatchedCreateRecipe [{ id := "s1", user := "U9", created := 0, expires := 10 }] 5
        (seedCreateRecipeEntry "rq1" "s1" (Value.vStr "Pasta") (Value.vIngredients [])
          (Value.vSteps []) (Value.vStr "Mallory"))) :=
  C4_principal_from_session [{ id := "s1", user := "U9", created := 0, expires := 10 }] 5
    "rq1" "rq2" "s1" (Value.vStr "R1") (Value.vStr "Step") (Value.vNum 0)
    (Value.vStr "hi") (Value.vStr "Mallory") (Value.vStr "Alice")
    (Value.vStr "Pasta") (Value.vIngredients []) (Value.vSteps [])
    (Value.vStr "Mallory") (Value.vStr "Alice") "U9" rfl

theorem getNotebook_eq_doc {notebooks : List NotebookDocument} {nb : String}
    {nd : NotebookDocument} (h : notebookFound notebooks nb = some nd) :
    Notebook._getNotebookById notebooks (Value.vStr nb) =
      [[("notebook", Value.vNotebookDoc nd)]] := by
  unfold notebookFound at h
  unfold Notebook._getNotebookById at h ⊢
  cases hfind : notebooks.find? (fun d => decide (Value.vStr d.id = Value.vStr nb)) with
  | some d =>
    rw [hfind] at h
    have h2 : d = nd := by simpa [getVal_cons, getVal] using h
    show [[("notebook", Value.vNotebookDoc d)]] = _
    rw [h2]
  | none =>
    rw [hfind] at h
    simp [errRow, getVal_cons, getVal] at h

theorem shareWhere_joined {sessions : List SessionDoc} {recipes : List RecipeDoc}
    {notebooks : List NotebookDocument} {now : Nat} {s u nb rc : String}
    {rd : RecipeDoc} {nd : NotebookDocument} (rq : String)
    (hu : sessionUserOf sessions now s = some u)
    (hr : recipeFound recipes rc = some rd)
    (hn : notebookFound notebooks nb = some nd) :
    shareRecipeWhere sessions recipes notebooks now [seedShareFrame rq s nb rc] =
      if u = rd.owner ∨ u ∈ nd.members then [shareJoinedFrame rq s nb rc u rd nd]
      else
        [frameWith (seedShareFrame rq s nb rc)
          [("error",
            Value.vStr "Only the recipe owner or notebook members can share this recipe.")]] := by
  unfold shareRecipeWhere
  dsimp only
  rw [queryStep_singleton]
  rw [show getValD (seedShareFrame rq s nb rc) "session" = Value.vStr s from rfl,
    getUser_eq_user hu]
  rw [show ([[("user", Value.vStr u)]] : List Row).filterMap
        (bindRowFields (seedShareFrame rq s nb rc) [("user", "sharer")]) =
      [setVal (seedShareFrame rq s nb rc) "sharer" (Value.vStr u)] from rfl]
  rw [if_neg (by
    simp [show hasErrorInFrame (setVal (seedShareFrame rq s nb rc) "sharer" (Value.vStr u)) =
      false from rfl])]
  rw [queryStep_singleton]
  rw [show getValD (setVal (seedShareFrame rq s nb rc) "sharer" (Value.vStr u))
      "recipe" = Value.vStr rc from rfl, getRecipe_eq_doc hr]
  rw [show ([[("recipe", Value.vRecipeDoc rd)]] : List Row).filterMap
        (bindRowFields (setVal (seedShareFrame rq s nb rc) "sharer" (Value.vStr u))
          [("recipe", "recipeDoc")]) =
      [setVal (setVal (seedShareFrame rq s nb rc) "sharer" (Value.vStr u)) "recipeDoc"
        (Value.vRecipeDoc rd)] from rfl]
  rw [if_neg (by
    simp [show hasErrorInFrame (setVal (setVal (seedShareFrame rq s nb rc) "sharer"
      (Value.vStr u)) "recipeDoc" (Value.vRecipeDoc rd)) = false from rfl])]
  rw [queryStep_singleton]
  rw [show getValD (setVal (setVal (seedShareFrame rq s nb rc) "sharer" (Value.vStr u))
      "recipeDoc" (Value.vRecipeDoc rd)) "notebook" = Value.vStr nb from rfl,
    getNotebook_eq_doc hn]
  rw [show ([[("notebook", Value.vNotebookDoc nd)]] : List Row).filterMap
        (bindRowFields (setVal (setVal (seedShareFrame rq s nb rc) "sharer" (Value.vStr u))
          "recipeDoc" (Value.vRecipeDoc rd)) [("notebook", "notebookDoc")]) =
      [shareJoinedFrame rq s nb rc u rd nd] from rfl]
  have he3 : hasErrorInFrame (shareJoinedFrame rq s nb rc u rd nd) = false := by
    unfold hasErrorInFrame shareJoinedFrame
    rw [getVal_setVal_ne _ _ _ _ (by decide), getVal_setVal_ne _ _ _ _ (by decide),
      getVal_setVal_ne _ _ _ _ (by decide)]
    rfl
  rw [if_neg (by simp [he3])]
  have hshget1 : getValD (shareJoinedFrame rq s nb rc u rd nd) "sharer" = Value.vStr u := by
    unfold getValD shareJoinedFrame
    rw [getVal_setVal_ne _ _ _ _ (by decide), getVal_setVal_ne _ _ _ _ (by decide),
      getVal_setVal_self]
    rfl
  have hshget2 : getValD (shareJoinedFrame rq s nb rc u rd nd) "recipeDoc" =
      Value.vRecipeDoc rd := by
    unfold getValD shareJoinedFrame
    rw [getVal_setVal_ne _ _ _ _ (by decide), getVal_setVal_self]
    rfl
  have hshget3 : getValD (shareJoinedFrame rq s nb rc u rd nd) "notebookDoc" =
      Value.vNotebookDoc nd := by
    unfold getValD shareJoinedFrame
    rw [getVal_setVal_self]
    rfl
  by_cases hP : u = rd.owner ∨ u ∈ nd.members
  · have hpred : sharePred (shareJoinedFrame rq s nb rc u rd nd) = true := by
      unfold sharePred
      rw [hshget1, hshget2, hshget3]
      rcases hP with hP | hP
      · simp [jsEq, recipeDocOwner, hP]
      · have hc : nd.members.contains u = true := List.elem_eq_true_of_mem hP
        simp [notebookMembersInclude, hc, hP]
    rw [if_pos hP]
    unfold filterStep
    simp only [List.filter_cons, List.filter_nil, hpred, if_true]
    rw [if_neg (by simp)]
  · have hpred : sharePred (shareJoinedFrame rq s nb rc u rd nd) = false := by
      unfold sharePred
      rw [hshget1, hshget2, hshget3]
      push_neg at hP
      have hc : nd.members.contains u = false := by
        rw [Bool.eq_false_iff]
        intro hcc
        exact hP.2 (List.mem_of_elem_eq_true hcc)
      simp [jsEq, recipeDocOwner, notebookMembersInclude, hP.1, hP.2, hc]
    rw [if_neg hP]
    unfold filterStep
    simp only [List.filter_cons, List.filter_nil, hpred]
    rfl

/-- C5: in the share-recipe rule, assuming the session resolves to a
user `u` and the recipe and notebook exist, a frame survives the
relationship filter if and only if the session-resolved sharer is the
recipe document's owner or is contained in the notebook document's
members list — the filter is the single embedded predicate `sharePred`,
whose body is that disjunction — and `Notebook.shareRecipe` is triggered
(with the session-derived sharer) exactly on surviving frames: when the
disjunction fails, the error frame binds no sharer and no invocation
resolves. -/
theorem C5_share_disjunction (sessions : List SessionDoc) (recipes : List RecipeDoc)
    (notebooks : List NotebookDocument) (now : Nat) (rq s nb rc u : String)
    (rd : RecipeDoc) (nd : NotebookDocument)
    (hu : sessionUserOf sessions now s = some u)
    (hr : recipeFound recipes rc = some rd)
    (hn : notebookFound notebooks nb = some nd) :
    (shareRecipeWhere sessions recipes notebooks now [seedShareFrame rq s nb rc] =
      if u = rd.owner ∨ u ∈ nd.members then [shareJoinedFrame rq s nb rc u rd nd]
      else
        [frameWith (seedShareFrame rq s nb rc)
          [("error",
            Value.vStr "Only the recipe owner or notebook members can share this recipe.")]]) ∧
    ((u = rd.owner ∨ u ∈ nd.members) →
      (shareRecipeWhere sessions recipes notebooks now
          [seedShareFrame rq s nb rc]).filterMap (fun f => resolveArgs f shareThenArgs) =
        [[("sharer", Value.vStr u), ("recipe", Value.vStr rc),
          ("notebook", Value.vStr nb)]]) ∧
    (¬(u = rd.owner ∨ u ∈ nd.members) →
      (shareRecipeWhere sessions recipes notebooks now
          [seedShareFrame rq s nb rc]).filterMap (fun f => resolveArgs f shareThenArgs) = []) := by
  have hjoined := shareWhere_joined rq hu hr hn
  refine ⟨hjoined, fun hP => ?_, fun hP => ?_⟩
  · rw [hjoined, if_pos hP]
    rfl
  · rw [hjoined, if_neg hP]
    rfl

/-- C5 witness: session `s1` resolves to `U2`, who is not the owner of
recipe `R1` (owned by `U1`) but is a member of notebook `N1`, so the
disjunction holds through its second clause and `Notebook.shareRecipe`
is dispatched with sharer `U2`. -/
theorem C5_share_disjunction_witness :
    (shareRecipeWhere [{ id := "s1", user := "U2", created := 0, expires := 10 }] [c1Recipe]
        [{ id := "N1", owner := "U3", title := "Club", description := none,
           members := ["U3", "U2"], recipes := [], created := 0 }] 5
        [seedShareFrame "rq1" "s1" "N1" "R1"] =
      if ("U2" : String) = c1Recipe.owner ∨ "U2" ∈
          ({ id := "N1", owner := "U3", title := "Club", description := none,
             members := ["U3", "U2"], recipes := [], created := 0 } : NotebookDocument).members
      then [shareJoinedFrame "rq1" "s1" "N1" "R1" "U2" c1Recipe
          { id := "N1", owner := "U3", title := "Club", description := none,
            members := ["U3", "U2"], recipes := [], created := 0 }]
      else
        [frameWith (seedShareFrame "rq1" "s1" "N1" "R1")
          [("error",
            Value.vStr "Only the recipe owner or notebook members can share this recipe.")]]) ∧
    (("U2" : String) = c1Recipe.owner ∨ "U2" ∈
        ({ id := "N1", owner := "U3", title := "Club", description := none,
           members := ["U3", "U2"], recipes := [], created := 0 } : NotebookDocument).members →
      (shareRecipeWhere [{ id := "s1", user := "U2", created := 0, expires := 10 }] [c1Recipe]
          [{ id := "N1", owner := "U3", title := "Club", description := none,
             members := ["U3", "U2"], recipes := [], created := 0 }] 5
          [seedShareFrame "rq1" "s1" "N1" "R1"]).filterMap
        (fun f => resolveArgs f shareThenArgs) =
        [[("sharer", Value.vStr "U2"), ("recipe", Value.vStr "R1"),
          ("notebook", Value.vStr "N1")]]) ∧
    (¬(("U2" : String) = c1Recipe.owner ∨ "U2" ∈
        ({ id := "N1", owner := "U3", title := "Club", description := none,
           members := ["U3", "U2"], recipes := [], created := 0 } : NotebookDocument).members) →
      (shareRecipeWhere [{ id := "s1", user := "U2", created := 0, expires := 10 }] [c1Recipe]
          [{ id := "N1", owner := "U3", title := "Club", description := none,
             members := ["U3", "U2"], recipes := [], created := 0 }] 5
          [seedShareFrame "rq1" "s1" "N1" "R1"]).filterMap
        (fun f => resolveArgs f shareThenArgs) = []) :=
  C5_share_disjunction [{ id := "s1", user := "U2", created := 0, expires := 10 }] [c1Recipe]
    [{ id := "N1", owner := "U3", title := "Club", description := none,
       members := ["U3", "U2"], recipes := [], created := 0 }] 5
    "rq1" "s1" "N1" "R1" "U2" c1Recipe
    { id := "N1", owner := "U3", title := "Club", description := none,
      members := ["U3", "U2"], recipes := [], created := 0 } rfl rfl rfl

theorem frameWith_getVal_ne (updates : Row) (f : Frame) (k : String)
    (h : ∀ kv ∈ updates, kv.1 ≠ k) :
    getVal (frameWith f updates) k = getVal f k := by
  induction updates generalizing f with
  | nil => rfl
  | cons kv t ih =>
    show getVal (frameWith (setVal f kv.1 kv.2) t) k = _
    rw [ih (setVal f kv.1 kv.2) (fun kv2 hm => h kv2 (List.mem_cons_of_mem kv hm))]
    exact getVal_setVal_ne f kv.1 k kv.2 (h kv (List.mem_cons_self kv t))

theorem bindRowFields_getVal_ne {outB : OutBinding} {row : Row} {f g : Frame} {k : String}
    (hb : bindRowFields f outB row = some g) (h : ∀ fv ∈ outB, fv.2 ≠ k) :
    getVal g k = getVal f k := by
  induction outB generalizing f with
  | nil =>
    cases hb
    rfl
  | cons fv t ih =>
    unfold bindRowFields at hb
    rw [List.foldlM_cons] at hb
    cases hv : getVal row fv.1 with
    | none => rw [hv] at hb; cases hb
    | some v =>
      rw [hv] at hb
      have hb2 : bindRowFields (setVal f fv.2 v) t row = some g := hb
      rw [ih hb2 (fun fv2 hm => h fv2 (List.mem_cons_of_mem fv hm))]
      exact getVal_setVal_ne f fv.2 k v (h fv (List.mem_cons_self fv t))

theorem queryStep_getVal_ne {frames : List Frame} {q : Frame → List Row}
    {outB : OutBinding} {g : Frame} {k : String}
    (hg : g ∈ queryStep frames q outB) (h : ∀ fv ∈ outB, fv.2 ≠ k) :
    ∃ f ∈ frames, getVal g k = getVal f k := by
  unfold queryStep at hg
  rw [List.mem_flatten] at hg
  obtain ⟨m, hm, hgm⟩ := hg
  rw [List.mem_map] at hm
  obtain ⟨f, hf, rfl⟩ := hm
  rw [List.mem_filterMap] at hgm
  obtain ⟨row, _, hb⟩ := hgm
  exact ⟨f, hf, bindRowFields_getVal_ne hb h⟩

theorem headD_mem {α : Type} {l : List α} (d : α) (h : l ≠ []) : l.headD d ∈ l := by
  cases l with
  | nil => exact absurd rfl h
  | cons a t => exact List.mem_cons_self a t

theorem applyOptionalField_getVal_ne (input : Row) (key : String) (f : Frame) (k : String)
    (h : key ≠ k) :
    getVal (applyOptionalField input key f) k = getVal f k := by
  unfold applyOptionalField
  dsimp only
  split
  · exact getVal_delVal_ne f key k h
  · exact getVal_setVal_ne f key k _ h

theorem seedUpdateFrame_keys {rq s rc k : String} {v : Value}
    (h : getVal (seedUpdateFrame rq s rc) k = some v) :
    k = "session" ∨ k = "recipe" ∨ k = "request" := by
  by_cases h1 : k = "session"
  · exact Or.inl h1
  by_cases h2 : k = "recipe"
  · exact Or.inr (Or.inl h2)
  by_cases h3 : k = "request"
  · exact Or.inr (Or.inr h3)
  exfalso
  rw [show getVal (seedUpdateFrame rq s rc) k = none by
    simp [seedUpdateFrame, getVal_cons, getVal, Ne.symm h1, Ne.symm h2, Ne.symm h3]] at h
  cases h

/-- C7: frames are never rebound during one rule's evaluation.  The
helper `frameWith` extends a frame without touching any binding whose
key is not among the updates, and every frame produced by the `where`
clause of `UpdateRecipeDetailsRequest` from a matcher-shaped seed frame
agrees with the seed on all of the seed's bindings: enrichment only adds
new variables (or drops/replaces whole frames), it never overwrites an
existing binding. -/
theorem C7_frame_monotonic :
    (∀ (f : Frame) (updates : Row), (∀ kv ∈ updates, getVal f kv.1 = none) →
      ∀ k v, getVal f k = some v → getVal (frameWith f updates) k = some v) ∧
    (∀ (requests : List RequestDoc) (sessions : List SessionDoc) (recipes : List RecipeDoc)
        (now : Nat) (rq s rc : String) (g : Frame),
      g ∈ updateRecipeWhere requests sessions recipes now [seedUpdateFrame rq s rc] →
      ∀ k v, getVal (seedUpdateFrame rq s rc) k = some v → getVal g k = some v) := by
  constructor
  · intro f updates hfresh k v hv
    rw [frameWith_getVal_ne updates f k ?hne]
    · exact hv
    · intro kv hm heq
      have hkv := hfresh kv hm
      rw [heq] at hkv
      rw [hkv] at hv
      cases hv
  · intro requests sessions recipes now rq s rc g hg k v hv
    have hkn : ∀ kk ∈ (["error", "requestDoc", "requester", "recipeDoc", "newTitle",
        "newDescription", "newIngredients", "newSteps"] : List String), kk ≠ k := by
      rcases seedUpdateFrame_keys hv with hk | hk | hk <;> subst hk <;> decide
    unfold updateRecipeWhere at hg
    dsimp only at hg
    split at hg
    · rw [List.mem_singleton] at hg
      subst hg
      rw [getVal_setVal_ne _ _ _ _ (hkn "error" (by decide))]
      exact hv
    · split at hg
      · rw [List.mem_singleton] at hg
        subst hg
        rw [getVal_setVal_ne _ _ _ _ (hkn "error" (by decide))]
        exact hv
      · split at hg
        · rw [List.mem_singleton] at hg
          subst hg
          rw [getVal_setVal_ne _ _ _ _ (hkn "error" (by decide))]
          exact hv
        · split at hg
          · rw [List.mem_singleton] at hg
            subst hg
            rw [getVal_setVal_ne _ _ _ _ (hkn "error" (by decide))]
            exact hv
          · rw [List.mem_singleton] at hg
            subst hg
            rw [applyOptionalField_getVal_ne _ _ _ _ (hkn "newSteps" (by decide)),
              applyOptionalField_getVal_ne _ _ _ _ (hkn "newIngredients" (by decide)),
              applyOptionalField_getVal_ne _ _ _ _ (hkn "newDescription" (by decide)),
              applyOptionalField_getVal_ne _ _ _ _ (hkn "newTitle" (by decide))]
            rename_i h1 h2 h3 h4
            have hne4 : filterStep
                (queryStep
                  (queryStep
                    (queryStep [seedUpdateFrame rq s rc]
                      (fun f => Requesting._getRequestById requests (getValD f "request"))
                      [("requestDoc", "requestDoc")])
                    (fun f => Sessioning._getUser sessions now (getValD f "session"))
                    [("user", "requester")])
                  (fun f => Recipe._getRecipeById recipes (getValD f "recipe"))
                  [("recipe", "recipeDoc")])
                (fun f => jsEq (getValD f "requester")
                  (recipeDocOwner (getValD f "recipeDoc"))) ≠ [] := by
              intro hnil
              exact h4 (by rw [hnil]; rfl)
            have hmem4 := headD_mem [] hne4
            have hmem3 : (filterStep
                (queryStep
                  (queryStep
                    (queryStep [seedUpdateFrame rq s rc]
                      (fun f => Requesting._getRequestById requests (getValD f "request"))
                      [("requestDoc", "requestDoc")])
                    (fun f => Sessioning._getUser sessions now (getValD f "session"))
                    [("user", "requester")])
                  (fun f => Recipe._getRecipeById recipes (getValD f "recipe"))
                  [("recipe", "recipeDoc")])
                (fun f => jsEq (getValD f "requester")
                  (recipeDocOwner (getValD f "recipeDoc")))).headD [] ∈
                queryStep
                  (queryStep
                    (queryStep [seedUpdateFrame rq s rc]
                      (fun f => Requesting._getRequestById requests (getValD f "request"))
                      [("requestDoc", "requestDoc")])
                    (fun f => Sessioning._getUser sessions now (getValD f "session"))
                    [("user", "requester")])
                  (fun f => Recipe._getRecipeById recipes (getValD f "recipe"))
                  [("recipe", "recipeDoc")] := List.mem_of_mem_filter hmem4
            obtain ⟨f2, hf2, he2⟩ := queryStep_getVal_ne hmem3 (by
              intro fv hm
              rw [List.mem_singleton] at hm
              subst hm
              exact hkn "recipeDoc" (by decide))
            obtain ⟨f1, hf1, he1⟩ := queryStep_getVal_ne hf2 (by
              intro fv hm
              rw [List.mem_singleton] at hm
              subst hm
              exact hkn "requester" (by decide))
            obtain ⟨f0, hf0, he0⟩ := queryStep_getVal_ne hf1 (by
              intro fv hm
              rw [List.mem_singleton] at hm
              subst hm
              exact hkn "requestDoc" (by decide))
            rw [List.mem_singleton] at hf0
            subst hf0
            rw [he2, he1, he0]
            exact hv

/-- C7 witness: a fresh-key `frameWith` extension keeps an existing
binding, and the concrete frame produced by the update-recipe `where`
clause keeps the seed's `session` binding. -/
theorem C7_frame_monotonic_witness :
    getVal (frameWith [("a", Value.vStr "x")] [("b", Value.vStr "y")]) "a" =
      some (Value.vStr "x") ∧
    getVal c7Frame "session" = some (Value.vStr "s1") :=
  ⟨C7_frame_monotonic.1 [("a", Value.vStr "x")] [("b", Value.vStr "y")] (by decide)
      "a" (Value.vStr "x") rfl,
   C7_frame_monotonic.2 c7Requests c7Sessions [c7Recipe] 5 "rq1" "s1" "R1" c7Frame
      (by decide) "session" (Value.vStr "s1") rfl⟩

/-- C8 counterexample.  `NotebookConcept.createNotebook` does not wrap
its store insert in try/catch: when the underlying store rejects, the
operation throws to its caller instead of returning an `{error}`
value. -/
theorem C8_counterexample :
    (Notebook.createNotebook [] 0 "n1" "U1" "Title" none false).1 =
      OpOutcome.thrown "insertOne rejected" := rfl

/-- C8 (amended).  `RecipeConcept.createRecipe` returns a value — success
fields or a single `{error}` — on every input and on every store
outcome, its insert being wrapped in try/catch; `createNotebook` and
`createSession` return such a value on every input whenever the store
succeeds, but propagate a store exception (their inserts are outside
any try/catch). -/
theorem C8_errors_as_values :
    (∀ (recipes : List RecipeDoc) (now : Nat) (freshId owner title : String)
        (ingredients : List Ingredient) (steps : List Step)
        (description forkedFrom : Option String) (insertOk : Bool),
      (Recipe.createRecipe recipes now freshId owner title ingredients steps description
          forkedFrom insertOk).1.isThrown = false) ∧
    (∀ (notebooks : List NotebookDocument) (now : Nat) (freshId owner title : String)
        (description : Option String),
      (Notebook.createNotebook notebooks now freshId owner title description true).1.isThrown =
        false) ∧
    (∀ (sessions : List SessionDoc) (now : Nat) (freshId user : String),
      (Sessioning.createSession sessions now freshId user true).1.isThrown = false) := by
  refine ⟨fun recipes now freshId owner title ingredients steps description forkedFrom insertOk => ?_,
    fun notebooks now freshId owner title description => ?_,
    fun sessions now freshId user => ?_⟩
  · unfold Recipe.createRecipe
    dsimp only
    repeat' split
    all_goals rfl
  · unfold Notebook.createNotebook
    split
    · rfl
    · rfl
  · unfold Sessioning.createSession
    split
    · rfl
    · rfl

/-- C9: `Sessioning._getUser {session}` answers `[{user: u}]` exactly
when an unexpired session document with that id is stored (strictly
`now < expires`, the `$gt` comparison), `u` being the user of the first
such document; otherwise it answers a one-element error list.  A
session document created by `createSession` expires exactly seven days
(in milliseconds) after its creation time.  The stored ids are the
nonempty outputs of `freshID`. -/
theorem C9_credential_resolution (sessions : List SessionDoc) (now : Nat) (s : String)
    (hids : ∀ d ∈ sessions, d.id ≠ "") :
    ((∃ u, Sessioning._getUser sessions now (Value.vStr s) = [[("user", Value.vStr u)]]) ↔
      ∃ d ∈ sessions, d.id = s ∧ now < d.expires) ∧
    (∀ d, sessions.find?
        (fun d => decide (Value.vStr d.id = Value.vStr s) && decide (now < d.expires)) =
          some d →
      Sessioning._getUser sessions now (Value.vStr s) = [[("user", Value.vStr d.user)]]) ∧
    ((¬ ∃ d ∈ sessions, d.id = s ∧ now < d.expires) →
      ∃ msg, Sessioning._getUser sessions now (Value.vStr s) = [errRow msg]) ∧
    (∀ (freshId user : String), user ≠ "" →
      (Sessioning.createSession sessions now freshId user true).2 =
        sessions ++
          [{ id := freshId, user := user, created := now,
             expires := now + 7 * 24 * 60 * 60 * 1000 }]) := by
  have hpred : ∀ d : SessionDoc,
      ((decide (Value.vStr d.id = Value.vStr s) && decide (now < d.expires)) = true) ↔
        (d.id = s ∧ now < d.expires) := by
    intro d
    simp
  refine ⟨⟨?_, ?_⟩, ?_, ?_, ?_⟩
  · rintro ⟨u, hu⟩
    unfold Sessioning._getUser at hu
    by_cases hf : Value.falsy (Value.vStr s)
    · rw [if_pos hf] at hu
      simp [errRow] at hu
    · rw [if_neg hf] at hu
      cases hfind : sessions.find?
          (fun d => decide (Value.vStr d.id = Value.vStr s) && decide (now < d.expires)) with
      | some d =>
        have hp := List.find?_some hfind
        exact ⟨d, List.mem_of_find?_eq_some hfind, (hpred d).mp hp⟩
      | none =>
        rw [hfind] at hu
        simp [errRow] at hu
  · rintro ⟨d, hd, hds, hde⟩
    have hs : s ≠ "" := hds ▸ hids d hd
    have hf : Value.falsy (Value.vStr s) = false := by
      simpa [Value.falsy] using hs
    have hsome : (sessions.find?
        (fun d => decide (Value.vStr d.id = Value.vStr s) && decide (now < d.expires))).isSome := by
      rw [List.find?_isSome]
      exact ⟨d, hd, (hpred d).mpr ⟨hds, hde⟩⟩
    obtain ⟨d2, hd2⟩ := Option.isSome_iff_exists.mp hsome
    refine ⟨d2.user, ?_⟩
    unfold Sessioning._getUser
    rw [if_neg (by simp [hf]), hd2]
  · intro d hd
    have hmem := List.mem_of_find?_eq_some hd
    have hp := List.find?_some hd
    have hds := ((hpred d).mp hp).1
    have hs : s ≠ "" := hds ▸ hids d hmem
    unfold Sessioning._getUser
    rw [if_neg (by simp [Value.falsy, hs]), hd]
  · intro hno
    unfold Sessioning._getUser
    by_cases hf : Value.falsy (Value.vStr s)
    · rw [if_pos hf]
      exact ⟨_, rfl⟩
    · rw [if_neg hf]
      cases hfind : sessions.find?
          (fun d => decide (Value.vStr d.id = Value.vStr s) && decide (now < d.expires)) with
      | some d =>
        exfalso
        have hp := List.find?_some hfind
        exact hno ⟨d, List.mem_of_find?_eq_some hfind, (hpred d).mp hp⟩
      | none => exact ⟨_, rfl⟩
  · intro freshId user huser
    unfold Sessioning.createSession
    rw [if_neg (by simpa using huser)]
    rfl

/-- C9 witness: a store holding one session for user `U1` expiring at
time 10, queried at time 5 with the right id; and a concrete
`createSession` call whose stored expiry is seven days after creation. -/
theorem C9_credential_resolution_witness :
    ((∃ u, Sessioning._getUser [{ id := "s1", user := "U1", created := 0, expires := 10 }] 5
        (Value.vStr "s1") = [[("user", Value.vStr u)]]) ↔
      ∃ d ∈ [({ id := "s1", user := "U1", created := 0, expires := 10 } : SessionDoc)],
        d.id = "s1" ∧ 5 < d.expires) ∧
    (∀ d, ([({ id := "s1", user := "U1", created := 0, expires := 10 } : SessionDoc)]).find?
        (fun d => decide (Value.vStr d.id = Value.vStr "s1") && decide (5 < d.expires)) =
          some d →
      Sessioning._getUser [{ id := "s1", user := "U1", created := 0, expires := 10 }] 5
        (Value.vStr "s1") = [[("user", Value.vStr d.user)]]) ∧
    ((¬ ∃ d ∈ [({ id := "s1", user := "U1", created := 0, expires := 10 } : SessionDoc)],
        d.id = "s1" ∧ 5 < d.expires) →
      ∃ msg, Sessioning._getUser [{ id := "s1", user := "U1", created := 0, expires := 10 }] 5
        (Value.vStr "s1") = [errRow msg]) ∧
    (∀ (freshId user : String), user ≠ "" →
      (Sessioning.createSession [{ id := "s1", user := "U1", created := 0, expires := 10 }] 5
          freshId user true).2 =
        [{ id := "s1", user := "U1", created := 0, expires := 10 }] ++
          [{ id := freshId, user := user, created := 5,
             expires := 5 + 7 * 24 * 60 * 60 * 1000 }]) :=
  C9_credential_resolution [{ id := "s1", user := "U1", created := 0, expires := 10 }] 5 "s1"
    (by decide)

theorem updateFirst_mem_of_find {p : α → Bool} {g : α → α} {l : List α} {a x : α}
    (hf : l.find? p = some a) (hx : x ∈ updateFirst p g l) : x ∈ l ∨ x = g a := by
  induction l with
  | nil => cases hx
  | cons b t ih =>
    by_cases hb : p b
    · rw [List.find?_cons_of_pos _ hb] at hf
      have ha : b = a := Option.some.inj hf
      subst ha
      unfold updateFirst at hx
      rw [if_pos hb] at hx
      rcases List.mem_cons.mp hx with hx | hx
      · exact Or.inr hx
      · exact Or.inl (List.mem_cons_of_mem b hx)
    · rw [List.find?_cons_of_neg _ hb] at hf
      unfold updateFirst at hx
      rw [if_neg hb] at hx
      rcases List.mem_cons.mp hx with hx | hx
      · exact Or.inl (hx ▸ List.mem_cons_self b t)
      · rcases ih hf hx with hx | hx
        · exact Or.inl (List.mem_cons_of_mem b hx)
        · exact Or.inr hx

theorem removeFirst_subset {p : α → Bool} {l : List α} {x : α}
    (hx : x ∈ removeFirst p l) : x ∈ l := by
  induction l with
  | nil => cases hx
  | cons b t ih =>
    unfold removeFirst at hx
    by_cases hb : p b
    · rw [if_pos hb] at hx
      exact List.mem_cons_of_mem b hx
    · rw [if_neg hb] at hx
      rcases List.mem_cons.mp hx with hx | hx
      · exact hx ▸ List.mem_cons_self b t
      · exact List.mem_cons_of_mem b (ih hx)

theorem addToSet_subset (l : List String) (x y : String) (h : y ∈ l) :
    y ∈ addToSet l x := by
  unfold addToSet
  split
  · exact h
  · exact List.mem_append_left _ h

theorem notebookOp_preserves (st : List NotebookDocument) (op : NotebookOp)
    (h : ∀ nb ∈ st, nb.owner ∈ nb.members) :
    ∀ nb ∈ applyNotebookOp st op, nb.owner ∈ nb.members := by
  intro nb hnb
  cases op with
  | create freshId now owner title description =>
    unfold applyNotebookOp Notebook.createNotebook at hnb
    dsimp only at hnb
    split at hnb
    · exact h nb hnb
    · rcases List.mem_append.mp hnb with hnb | hnb
      · exact h nb hnb
      · rw [List.mem_singleton] at hnb
        subst hnb
        exact List.mem_cons_self owner []
  | invite owner notebook member =>
    unfold applyNotebookOp Notebook.inviteMember at hnb
    dsimp only at hnb
    cases hfind : (st.find? (fun d => decide (d.id = notebook))) with
    | none => rw [hfind] at hnb; exact h nb hnb
    | some doc =>
      rw [hfind] at hnb
      dsimp only at hnb
      split at hnb
      · exact h nb hnb
      · split at hnb
        · exact h nb hnb
        · rcases updateFirst_mem_of_find hfind hnb with hnb | hnb
          · exact h nb hnb
          · subst hnb
            exact addToSet_subset _ _ _ (h doc (List.mem_of_find?_eq_some hfind))
  | removeM owner notebook member =>
    unfold applyNotebookOp Notebook.removeMember at hnb
    dsimp only at hnb
    cases hfind : (st.find? (fun d => decide (d.id = notebook))) with
    | none => rw [hfind] at hnb; exact h nb hnb
    | some doc =>
      rw [hfind] at hnb
      dsimp only at hnb
      split at hnb
      · exact h nb hnb
      · split at hnb
        · exact h nb hnb
        · split at hnb
          · exact h nb hnb
          · rcases updateFirst_mem_of_find hfind hnb with hnb | hnb
            · exact h nb hnb
            · subst hnb
              rename_i hown hmo _
              rw [List.mem_filter]
              refine ⟨h doc (List.mem_of_find?_eq_some hfind), ?_⟩
              have hde : doc.owner = owner := by
                by_cases hq : doc.owner = owner
                · exact hq
                · exact absurd hq hown
              rw [Bool.not_eq_eq_eq_not, Bool.not_true, beq_eq_false_iff_ne]
              rw [hde]
              exact fun hc => hmo hc.symm
  | share sharer recipe notebook =>
    unfold applyNotebookOp Notebook.shareRecipe at hnb
    dsimp only at hnb
    cases hfind : (st.find? (fun d => decide (d.id = notebook))) with
    | none => rw [hfind] at hnb; exact h nb hnb
    | some doc =>
      rw [hfind] at hnb
      dsimp only at hnb
      split at hnb
      · exact h nb hnb
      · rcases updateFirst_mem_of_find hfind hnb with hnb | hnb
        · exact h nb hnb
        · subst hnb
          exact h doc (List.mem_of_find?_eq_some hfind)
  | unshare requester recipe notebook =>
    unfold applyNotebookOp Notebook.unshareRecipe at hnb
    dsimp only at hnb
    cases hfind : (st.find? (fun d => decide (d.id = notebook))) with
    | none => rw [hfind] at hnb; exact h nb hnb
    | some doc =>
      rw [hfind] at hnb
      dsimp only at hnb
      split at hnb
      · exact h nb hnb
      · rcases updateFirst_mem_of_find hfind hnb with hnb | hnb
        · exact h nb hnb
        · subst hnb
          exact h doc (List.mem_of_find?_eq_some hfind)
  | delete owner notebook =>
    unfold applyNotebookOp Notebook.deleteNotebook at hnb
    dsimp only at hnb
    cases hfind : (st.find? (fun d => decide (d.id = notebook))) with
    | none => rw [hfind] at hnb; exact h nb hnb
    | some doc =>
      rw [hfind] at hnb
      dsimp only at hnb
      split at hnb
      · exact h nb hnb
      · exact h nb (removeFirst_subset hnb)

theorem applyNotebookOps_preserves (ops : List NotebookOp) (st : List NotebookDocument)
    (h : ∀ nb ∈ st, nb.owner ∈ nb.members) :
    ∀ nb ∈ applyNotebookOps ops st, nb.owner ∈ nb.members := by
  induction ops generalizing st with
  | nil => exact h
  | cons op t ih =>
    exact ih (applyNotebookOp st op) (notebookOp_preserves st op h)

/-- C10: every notebook reachable from the empty store by Notebook
operations has its owner among its members — `createNotebook`
initializes the members list to `[owner]`, `inviteMember` only adds
members, and `removeMember` refuses to remove the owner, so no sequence
of Notebook operations produces a notebook whose owner is not a
member. -/
theorem C10_owner_membership (ops : List NotebookOp) :
    ∀ nb ∈ applyNotebookOps ops [], nb.owner ∈ nb.members :=
  applyNotebookOps_preserves ops [] (by intro nb hnb; cases hnb)

/-- C10 witness: after creating a notebook, inviting a member and then
trying (and failing) to remove the owner, the one stored notebook still
lists its owner among its members. -/
theorem C10_owner_membership_witness :
    ({ id := "N1", owner := "U1", title := "Club", description := none,
       members := ["U1", "U2"], recipes := [], created := 0 } : NotebookDocument).owner ∈
      ({ id := "N1", owner := "U1", title := "Club", description := none,
         members := ["U1", "U2"], recipes := [], created := 0 } : NotebookDocument).members :=
  C10_owner_membership
    [NotebookOp.create "N1" 0 "U1" "Club" none,
     NotebookOp.invite "U1" "N1" "U2",
     NotebookOp.removeM "U1" "N1" "U1"]
    { id := "N1", owner := "U1", title := "Club", description := none,
      members := ["U1", "U2"], recipes := [], created := 0 }
    (by decide)

end Nibble
